import Mathlib

/-!
# Verification of the GS-IOT assignment / rebalancing engine

Shallow embedding of the task-distribution, recommendation and wellbeing
services of the `Global-Solution-Ideatec/GS-IOT` repository
(`app/models/user.py`, `app/models/task.py`, `app/models/wellbeing.py`,
`app/services/gemini_service.py`, `app/services/task_distribution.py`,
`app/services/sentiment_analysis.py`, `app/routes/tasks.py`).

Conventions used throughout:
* Python `float` quantities (hours, workloads, scores) are modelled as `ℚ`.
* SQLAlchemy rows are Lean structures; the database session is a `DBState`
  record of row lists, and ORM mutations become pure state updates.
* Python truthiness tests on numbers (`if task.estimated_hours:`,
  `if team_id:`) are embedded as explicit `≠ 0` / `Option` tests.
* The Gemini text-generation call is an untrusted external collaborator and
  enters the embedding as a function parameter (`Oracle`); the surrounding
  prompt construction is pure string building with no effect on control flow
  and is not modelled.
-/

namespace GSIOT

/-! ## Data model: `app/models/user.py` -/

/-- `UserRole` from `app/models/user.py`. -/
inductive UserRole where
  | colaborador
  | gestor
  | admin
deriving DecidableEq, Repr

/-- A row of the `users` table (`app/models/user.py`), restricted to the
columns the engine reads: identity, team scope, activity flag, role and the
workload counters.  Timestamps, e-mail and password columns are never read by
the services under verification and are omitted. -/
structure User where
  id : Nat
  username : String
  fullName : String
  role : UserRole
  isActive : Bool
  managerId : Option Nat
  workloadCapacity : ℚ
  currentWorkload : ℚ
deriving DecidableEq, Repr

/-- `User.workload_percentage` (`app/models/user.py:58-63`):
`0.0` when capacity is zero, otherwise `current_workload / workload_capacity * 100`. -/
def workloadPercentage (u : User) : ℚ :=
  if u.workloadCapacity = 0 then 0
  else u.currentWorkload / u.workloadCapacity * 100

/-- `User.is_overloaded` (`app/models/user.py:65-68`): load percentage
strictly above 90. -/
def isOverloaded (u : User) : Bool :=
  decide (workloadPercentage u > 90)

/-- `User.available_hours` (`app/models/user.py:70-73`):
`max(0, workload_capacity - current_workload)`. -/
def availableHours (u : User) : ℚ :=
  max 0 (u.workloadCapacity - u.currentWorkload)

/-! ## Data model: `app/models/task.py` -/

/-- `TaskStatus` from `app/models/task.py`. -/
inductive TaskStatus where
  | pending
  | inProgress
  | completed
  | cancelled
  | blocked
deriving DecidableEq, Repr

/-- `TaskPriority` from `app/models/task.py`. -/
inductive TaskPriority where
  | low
  | medium
  | high
  | urgent
deriving DecidableEq, Repr

/-- The label under which SQLAlchemy persists a `TaskPriority` member: the
generic `Enum(TaskPriority)` column type stores the Python enum member *name*
as a string (`"LOW"`, `"MEDIUM"`, `"HIGH"`, `"URGENT"`).  `ORDER BY` on such a
column compares these strings. -/
def priorityLabel : TaskPriority → String
  | .low => "LOW"
  | .medium => "MEDIUM"
  | .high => "HIGH"
  | .urgent => "URGENT"

/-- The position of a priority's persisted label in lexicographic string
order: `"HIGH" < "LOW" < "MEDIUM" < "URGENT"`.  This is the order a string
`ORDER BY` on the column actually uses. -/
def labelRank : TaskPriority → Nat
  | .high => 0
  | .low => 1
  | .medium => 2
  | .urgent => 3

/-- The semantic ordering of priorities stated by the spec:
`urgent > high > medium > low`. -/
def priorityRank : TaskPriority → Nat
  | .low => 0
  | .medium => 1
  | .high => 2
  | .urgent => 3

/-- A row of the `tasks` table (`app/models/task.py`), restricted to the
columns read or written by the services under verification. -/
structure Task where
  id : Nat
  title : String
  status : TaskStatus
  priority : TaskPriority
  assignedTo : Option Nat
  estimatedHours : Option ℚ
  aiMatchScore : Option ℚ
  aiRecommendationReason : Option String
deriving DecidableEq, Repr

/-! ## Data model: `app/models/wellbeing.py` -/

/-- `MoodLevel` from `app/models/wellbeing.py`. -/
inductive MoodLevel where
  | veryBad
  | bad
  | neutral
  | good
  | veryGood
deriving DecidableEq, Repr

/-- `EnergyLevel` from `app/models/wellbeing.py`. -/
inductive EnergyLevel where
  | exhausted
  | low
  | medium
  | high
  | veryHigh
deriving DecidableEq, Repr

/-- A row of the `wellbeing_checks` table, restricted to the columns the
sentiment-analysis service reads.  `createdAt` is an abstract integer
timestamp (only comparisons of timestamps matter to the code). -/
structure WellbeingCheck where
  userId : Nat
  mood : MoodLevel
  energy : EnergyLevel
  aiBurnoutRisk : Option ℤ
  createdAt : ℤ
deriving DecidableEq, Repr

/-- The `.value` string of a `MoodLevel` member. -/
def moodValue : MoodLevel → String
  | .veryBad => "very_bad"
  | .bad => "bad"
  | .neutral => "neutral"
  | .good => "good"
  | .veryGood => "very_good"

/-- The `.value` string of an `EnergyLevel` member. -/
def energyValue : EnergyLevel → String
  | .exhausted => "exhausted"
  | .low => "low"
  | .medium => "medium"
  | .high => "high"
  | .veryHigh => "very_high"

/-- `WellbeingCheck.mood_emoji` (`app/models/wellbeing.py:58-68`). -/
def moodEmoji : MoodLevel → String
  | .veryBad => "😞"
  | .bad => "😟"
  | .neutral => "😐"
  | .good => "🙂"
  | .veryGood => "😄"

/-- `WellbeingCheck.energy_bars` (`app/models/wellbeing.py:70-80`). -/
def energyBars : EnergyLevel → String
  | .exhausted => "🔋"
  | .low => "🔋🔋"
  | .medium => "🔋🔋🔋"
  | .high => "🔋🔋🔋🔋"
  | .veryHigh => "🔋🔋🔋🔋🔋"

/-- `WellbeingCheck.is_concerning` (`app/models/wellbeing.py:82-87`):
mood in {very_bad, bad} or energy in {exhausted, low}. -/
def isConcerning (c : WellbeingCheck) : Bool :=
  (decide (c.mood = .veryBad) || decide (c.mood = .bad))
    || (decide (c.energy = .exhausted) || decide (c.energy = .low))

/-! ## Sentiment analysis helpers (`app/services/sentiment_analysis.py`) -/

/-- `SentimentAnalysisService._mood_to_score`
(`app/services/sentiment_analysis.py:347-356`).  The Python `dict.get`
default `3` is unreachable because the table covers every member. -/
def moodToScore : MoodLevel → ℤ
  | .veryBad => 1
  | .bad => 2
  | .neutral => 3
  | .good => 4
  | .veryGood => 5

/-- `SentimentAnalysisService._energy_to_score`
(`app/services/sentiment_analysis.py:359-368`). -/
def energyToScore : EnergyLevel → ℤ
  | .exhausted => 1
  | .low => 2
  | .medium => 3
  | .high => 4
  | .veryHigh => 5

/-- `SentimentAnalysisService._check_declining_trend`
(`app/services/sentiment_analysis.py:371-383`): compare the mean of the last
three scores with the mean of the first three; declare a decline when the
recent mean is strictly below the older mean minus `0.5`.  Scores are the
integer mood/energy scores; the Python float arithmetic on them is exact and
is modelled in `ℚ`. -/
def checkDecliningTrend (scores : List ℤ) : Bool :=
  if scores.length < 3 then false
  else
    let recent := scores.drop (scores.length - 3)
    let older := scores.take 3
    let avgRecent : ℚ := (recent.sum : ℚ) / (recent.length : ℚ)
    let avgOlder : ℚ := (older.sum : ℚ) / (older.length : ℚ)
    decide (avgRecent < avgOlder - 1/2)

/-- Result of `SentimentAnalysisService.detect_burnout_patterns`
(`app/services/sentiment_analysis.py:243-295`): either the explicit
insufficient-data reply (fewer than 3 checks in the window), or the pattern
analysis with its risk score.  The recommendation strings
(`_get_burnout_recommendations`) are presentation-only and omitted. -/
inductive BurnoutOutcome where
  | insufficientData
  | result (hasPattern : Bool) (riskScore : ℤ)
      (decliningMood decliningEnergy consistentLowMood consistentLowEnergy : Bool)
      (severity : String)
deriving DecidableEq, Repr

/-- `SentimentAnalysisService.detect_burnout_patterns`
(`app/services/sentiment_analysis.py:243-295`), applied to the checks of the
analysis window in ascending chronological order (the service queries them
`order_by(created_at.asc())`). -/
def detectBurnoutPatterns (checks : List WellbeingCheck) (threshold : ℤ) : BurnoutOutcome :=
  if checks.length < 3 then .insufficientData
  else
    let moodScores := checks.map (fun c => moodToScore c.mood)
    let energyScores := checks.map (fun c => energyToScore c.energy)
    let decliningMood := checkDecliningTrend moodScores
    let decliningEnergy := checkDecliningTrend energyScores
    let consistentLowMood :=
      decide (((checks.filter (fun c => moodToScore c.mood ≤ 2)).length : ℚ)
        / (checks.length : ℚ) > 1/2)
    let consistentLowEnergy :=
      decide (((checks.filter (fun c => energyToScore c.energy ≤ 2)).length : ℚ)
        / (checks.length : ℚ) > 1/2)
    let riskScore : ℤ :=
      (if decliningMood then 30 else 0) + (if decliningEnergy then 30 else 0)
        + (if consistentLowMood then 20 else 0) + (if consistentLowEnergy then 20 else 0)
    .result (decide (riskScore ≥ threshold)) riskScore
      decliningMood decliningEnergy consistentLowMood consistentLowEnergy
      (if riskScore ≥ 80 then "high" else if riskScore ≥ 50 then "medium" else "low")

/-! ## Recommendation engine (`app/services/gemini_service.py`) -/

/-- Rounding to one decimal place, as applied by
`round(user.workload_percentage, 1)` when candidate snapshots are built
(`app/services/task_distribution.py:284`) and by the `round(_, 1)` calls of
the team summary.  Python's `round` on floats rounds halves to even; the
difference to round-half-up only concerns exact `.x5` halves and no claim
settled here depends on it. -/
def round1 (q : ℚ) : ℚ :=
  (⌊q * 10 + 1/2⌋ : ℚ) / 10

/-- The candidate snapshot handed to the recommendation engine, as built by
`TaskDistributionService._prepare_candidate_data`
(`app/services/task_distribution.py:264-288`), restricted to the fields the
engine's control flow reads (`id`, `name`, `workload`).  The snapshot always
carries a `workload` key, so the `c.get('workload', 100)` default of the
fallback is unreachable on snapshots built by the service. -/
structure Candidate where
  id : Nat
  name : String
  workload : ℚ
deriving DecidableEq, Repr

/-- The recommendation dictionary shapes relevant to control flow: every
dictionary that carries a `recommended_user_id` key.  Optional reply fields
that are absent surface to Python as `None`/defaults; none of the claims
settled here depend on them beyond presence of the listed fields. -/
structure RecResult where
  recommendedUserId : Nat
  recommendedUserName : String
  matchScore : ℚ
  reasoning : String
  pros : List String
  cons : List String
  warnings : List String
deriving DecidableEq, Repr

/-- Python's `min(candidates, key=lambda c: c.get('workload', 100))` on a
non-empty list: scan left to right, replacing the current best only on a
strictly smaller key, so the first-encountered minimum wins ties. -/
def minWorkloadFirst (c : Candidate) (cs : List Candidate) : Candidate :=
  cs.foldl (fun best d => if d.workload < best.workload then d else best) c

/-- The dictionary literal returned by the non-empty branch of
`GeminiService._fallback_recommendation` (`app/services/gemini_service.py:465-473`). -/
def mkFallbackRec (best : Candidate) : RecResult :=
  { recommendedUserId := best.id
    recommendedUserName := best.name
    matchScore := 50
    reasoning := "Seleção automática baseada em menor carga de trabalho (IA indisponível)"
    pros := ["Menor carga atual"]
    cons := ["Recomendação sem análise completa de IA"]
    warnings := ["Sistema de IA temporariamente indisponível"] }

/-- `GeminiService._fallback_recommendation`
(`app/services/gemini_service.py:457-473`): the `{"error": ...}` dictionary on
an empty candidate list, otherwise the synthesized recommendation for the
minimum-workload candidate. -/
def fallbackRecommendation (candidates : List Candidate) : Except String RecResult :=
  match candidates with
  | [] => .error "Nenhum candidato disponível"
  | c :: cs => .ok (mkFallbackRec (minWorkloadFirst c cs))

/-- A minimal JSON value universe standing for what `json.loads` produces.
The parser itself (`json.loads`) is Python's standard library — an external
collaborator — and enters the embedding as a function parameter. -/
inductive Json where
  | null
  | bool (b : Bool)
  | num (q : ℚ)
  | str (s : String)
  | arr (elems : List Json)
  | obj (fields : List (String × Json))

/-- The code-fence stripping of `GeminiService._parse_json_response`
(`app/services/gemini_service.py:438-448`): strip whitespace, drop a leading
` ```json ` (7 chars) then a leading ` ``` ` (3 chars), drop a trailing
` ``` `, strip again. -/
def stripCodeFences (s : String) : String :=
  let c := s.trim
  let c := if c.startsWith "```json" then c.drop 7 else c
  let c := if c.startsWith "```" then c.drop 3 else c
  let c := if c.endsWith "```" then c.dropRight 3 else c
  c.trim

/-- Outcome of `GeminiService._parse_json_response`
(`app/services/gemini_service.py:436-454`): the parsed value, or — when
`json.loads` raises `JSONDecodeError` — the
`{"error": "Erro ao processar resposta da IA", "raw_response": response_text}`
dictionary carrying the *unstripped* reply text. -/
inductive ParseOutcome where
  | ok (j : Json)
  | err (raw : String)

/-- `GeminiService._parse_json_response`, parameterised by the `json.loads`
parser (`none` models a `JSONDecodeError`). -/
def parseJsonResponse (loads : String → Option Json) (responseText : String) : ParseOutcome :=
  match loads (stripCodeFences responseText) with
  | some j => .ok j
  | none => .err responseText

/-- The oracle call `self.model.generate_content(prompt)` either raises or
yields a reply text. -/
inductive OracleReply where
  | raises
  | text (t : String)

/-- The distinct dictionary shapes `GeminiService.generate_task_recommendation`
can hand back to its caller. -/
inductive GeminiTaskResult where
  | parsed (j : Json)
  | parseError (raw : String)
  | fallback (r : RecResult)
  | fallbackNoCandidates

/-- `GeminiService.generate_task_recommendation`
(`app/services/gemini_service.py:30-61`): an exception anywhere in the `try`
block (in particular a raising oracle call) is answered with
`_fallback_recommendation(candidates)`; a reply text is passed through
`_parse_json_response`, whose parse-error dictionary is returned as-is
(`json.JSONDecodeError` is caught *inside* `_parse_json_response` and does not
reach the outer handler). -/
def generateTaskRecommendation (loads : String → Option Json) (reply : OracleReply)
    (candidates : List Candidate) : GeminiTaskResult :=
  match reply with
  | .raises =>
    match fallbackRecommendation candidates with
    | .ok r => .fallback r
    | .error _ => .fallbackNoCandidates
  | .text t =>
    match parseJsonResponse loads t with
    | .ok j => .parsed j
    | .err raw => .parseError raw

/-! ## Database state and task distribution (`app/services/task_distribution.py`,
`app/routes/tasks.py`) -/

/-- The relational store the services operate on: the `users`, `tasks` and
`wellbeing_checks` tables.  ORM mutations on session objects become pure
updates of this record. -/
structure DBState where
  users : List User
  tasks : List Task
  checks : List WellbeingCheck
deriving DecidableEq, Repr

/-- Number of rows of a user list carrying a given id (1 for an existing id
under primary-key uniqueness). -/
def countId (us : List User) (uid : Nat) : ℚ :=
  (us.map (fun u => if u.id = uid then (1 : ℚ) else 0)).sum

/-- Total workload booked on the rows with the given id (the row's
`current_workload` for an existing id under primary-key uniqueness). -/
def loadOf (us : List User) (uid : Nat) : ℚ :=
  (us.map (fun u => if u.id = uid then u.currentWorkload else 0)).sum

/-- System-wide workload: the sum of every user's `current_workload`. -/
def sumLoads (us : List User) : ℚ :=
  (us.map (fun u => u.currentWorkload)).sum

/-- In-place update of the `current_workload` of the user row(s) with the
given id, as performed by `user.current_workload = ...` followed by a commit. -/
def mapLoad (us : List User) (uid : Nat) (f : ℚ → ℚ) : List User :=
  us.map (fun u => if u.id = uid then { u with currentWorkload := f u.currentWorkload } else u)

/-- `user.current_workload += δ` on the row with the given id. -/
def addLoad (us : List User) (uid : Nat) (δ : ℚ) : List User :=
  mapLoad us uid (fun w => w + δ)

/-- `task.assigned_to = uid` on the row with the given id. -/
def setTaskAssignee (ts : List Task) (tid : Nat) (uid : Nat) : List Task :=
  ts.map (fun t => if t.id = tid then { t with assignedTo := some uid } else t)

/-- `db.query(Task).filter(Task.id == tid).first()`. -/
def findTask (s : DBState) (tid : Nat) : Option Task :=
  s.tasks.find? (fun t => decide (t.id = tid))

/-- `db.query(User).filter(User.id == uid).first()`. -/
def findUser (s : DBState) (uid : Nat) : Option User :=
  s.users.find? (fun u => decide (u.id = uid))

/-- `db.query(User).filter(User.username == name).first()`. -/
def findUserByUsername (s : DBState) (name : String) : Option User :=
  s.users.find? (fun u => decide (u.username = name))

/-- `TaskDistributionService._get_eligible_candidates`
(`app/services/task_distribution.py:230-248`): active contributors, scoped to
`manager_id == team_id` when `team_id` is truthy, keeping those with
`available_hours > 0`.  The work item itself is not consulted. -/
def eligibleCandidates (s : DBState) (teamId : Option Nat) : List User :=
  let base : List User := s.users.filter (fun u => decide (u.role = .colaborador) && u.isActive)
  let inScope : List User :=
    match teamId with
    | some tid =>
      if tid ≠ 0 then base.filter (fun u => decide (u.managerId = some tid)) else base
    | none => base
  inScope.filter (fun u => decide (0 < availableHours u))

/-- `TaskDistributionService._prepare_candidate_data`
(`app/services/task_distribution.py:264-288`), restricted to the control-flow
fields: id, full name and `round(workload_percentage, 1)`. -/
def prepCandidate (u : User) : Candidate :=
  { id := u.id, name := u.fullName, workload := round1 (workloadPercentage u) }

/-- Outcome of a `GeminiService.generate_task_recommendation` call as seen by
`TaskDistributionService` (the prompt text does not influence control flow, so
the oracle consumes the work item and the candidate snapshots directly):
either the `generate_content` call raises, or its reply fails to parse, or it
parses into a recommendation dictionary carrying a `recommended_user_id`.  The
oracle is untrusted: a parsed reply may name *any* user id. -/
inductive GemOutcome where
  | raised
  | parseError
  | ok (r : RecResult)

/-- The untrusted recommendation oracle as a parameter of the engine. -/
def Oracle : Type :=
  Task → List Candidate → GemOutcome

/-- `TaskDistributionService.recommend_assignee`
(`app/services/task_distribution.py:26-83`), projected onto the presence of a
`recommended_user_id` key: `none` for the error dictionaries (unknown task, no
eligible candidates, unparsable reply) and `some r` when the result carries a
recommendation (oracle reply or fallback).  The `user_details` enrichment adds
no key read downstream. -/
def recommendAssignee (oracle : Oracle) (s : DBState) (taskId : Nat)
    (teamId : Option Nat) : Option RecResult :=
  match findTask s taskId with
  | none => none
  | some t =>
    match eligibleCandidates s teamId with
    | [] => none
    | c :: cs =>
      match oracle t ((c :: cs).map prepCandidate) with
      | .raised =>
        match fallbackRecommendation ((c :: cs).map prepCandidate) with
        | .ok r => some r
        | .error _ => none
      | .parseError => none
      | .ok r => some r

/-- Stable insertion (descending by persisted priority label) implementing
the effect of `ORDER BY priority DESC` on the string-backed priority column. -/
def insertByLabelDesc (t : Task) : List Task → List Task
  | [] => [t]
  | x :: xs =>
    if labelRank x.priority < labelRank t.priority then t :: x :: xs
    else x :: insertByLabelDesc t xs

/-- Sort by persisted priority label, descending (the order
`.order_by(Task.priority.desc())` yields on a string-backed enum column). -/
def sortByLabelDesc : List Task → List Task
  | [] => []
  | t :: ts => insertByLabelDesc t (sortByLabelDesc ts)

/-- The pending work items of one member considered for movement
(`app/services/task_distribution.py:168-175`): their pending tasks, ordered by
`Task.priority.desc()`, truncated to the top 3. -/
def consideredTasks (s : DBState) (uid : Nat) : List Task :=
  (sortByLabelDesc (s.tasks.filter
    (fun t => decide (t.assignedTo = some uid) && decide (t.status = .pending)))).take 3

/-- A proposed move recorded by the rebalancer
(`app/services/task_distribution.py:181-189`). -/
structure Move where
  taskId : Nat
  taskTitle : String
  fromUser : String
  toUser : String
  toUserId : Nat
  reason : String
  matchScore : ℚ
deriving DecidableEq, Repr

/-- One iteration of the apply loop
(`app/services/task_distribution.py:193-209`): look up the task by id, the
source by username, the destination by id; if all three resolve, reassign the
task and, when the task has truthy estimated hours, shift them from the
source's to the destination's workload. -/
def applyMove (s : DBState) (m : Move) : DBState :=
  match findTask s m.taskId, findUserByUsername s m.fromUser, findUser s m.toUserId with
  | some t, some ou, some nu =>
    let s1 : DBState := { s with tasks := setTaskAssignee s.tasks m.taskId nu.id }
    match t.estimatedHours with
    | some h =>
      if h = 0 then s1
      else { s1 with users := addLoad (addLoad s1.users ou.id (-h)) nu.id h }
    | none => s1
  | _, _, _ => s

/-- The apply loop over the proposed-move list
(`app/services/task_distribution.py:192-211`). -/
def applyMoves (s : DBState) (moves : List Move) : DBState :=
  moves.foldl applyMove s

/-- The report returned by `rebalance_team_workload`
(`app/services/task_distribution.py:214-220`). -/
structure RebalanceReport where
  overloadedCount : Nat
  underloadedCount : Nat
  recommendations : List Move
  applied : Bool
deriving Repr

/-- `TaskDistributionService.rebalance_team_workload`
(`app/services/task_distribution.py:137-225`): collect the manager's active
team (`none` report for the `{"error": "Equipe não encontrada"}` branch),
partition into overloaded / underloaded, gather at most 3 considered pending
items per overloaded member, record a proposed move whenever the
recommendation names someone other than the current holder, and apply the
moves unless `dry_run`. -/
def rebalanceTeamWorkload (oracle : Oracle) (s : DBState) (teamId : Nat)
    (dryRun : Bool) : DBState × Option RebalanceReport :=
  let team := s.users.filter (fun u => decide (u.managerId = some teamId) && u.isActive)
  if team.isEmpty then (s, none)
  else
    let overloaded := team.filter (fun u => isOverloaded u)
    let underloaded := team.filter (fun u => decide (workloadPercentage u < 70))
    let recs := overloaded.flatMap (fun ou =>
      (consideredTasks s ou.id).filterMap (fun t =>
        match recommendAssignee oracle s t.id (some teamId) with
        | some r =>
          if r.recommendedUserId ≠ ou.id then
            some { taskId := t.id, taskTitle := t.title, fromUser := ou.username
                   toUser := r.recommendedUserName, toUserId := r.recommendedUserId
                   reason := r.reasoning, matchScore := r.matchScore }
          else none
        | none => none))
    let s' := if !dryRun && !recs.isEmpty then applyMoves s recs else s
    (s', some { overloadedCount := overloaded.length, underloadedCount := underloaded.length
                recommendations := recs, applied := !dryRun })

/-- The auto-assign branch of `TaskDistributionService.auto_distribute_task`
(`app/services/task_distribution.py:107-122`): set assignee, status and AI
provenance on the task, and add the task's truthy estimated hours to the
assignee's workload when the assignee row exists.  A vanished task raises
inside the `try` block and the rollback leaves the state unchanged. -/
def autoAssignTask (s : DBState) (taskId userId : Nat) (score : ℚ)
    (reason : String) : DBState :=
  match findTask s taskId with
  | none => s
  | some t =>
    let s1 : DBState := { s with tasks := s.tasks.map (fun x =>
      if x.id = taskId then
        { x with assignedTo := some userId, status := .pending
                 aiMatchScore := some score, aiRecommendationReason := some reason }
      else x) }
    match findUser s userId, t.estimatedHours with
    | some _, some h =>
      if h = 0 then s1 else { s1 with users := addLoad s1.users userId h }
    | _, _ => s1

/-- `delete_task` (`app/routes/tasks.py:396-430`): for an existing task with a
truthy assignee and truthy estimated hours, clamp the assignee's workload at
`max(0, current_workload - estimated_hours)`, then delete the row. -/
def deleteTask (s : DBState) (taskId : Nat) : DBState :=
  match findTask s taskId with
  | none => s
  | some t =>
    let s1 : DBState :=
      match t.assignedTo, t.estimatedHours with
      | some uid, some h =>
        if uid = 0 ∨ h = 0 then s
        else
          match findUser s uid with
          | some _ => { s with users := mapLoad s.users uid (fun w => max 0 (w - h)) }
          | none => s
      | _, _ => s
    { s1 with tasks := s1.tasks.filter (fun x => decide (x.id ≠ taskId)) }

/-- The manager reassignment slice of `update_task`
(`app/routes/tasks.py:308-393`) with only `assigned_to` present in the update
payload: the task's assignee is overwritten and no workload is touched. -/
def updateTaskAssignee (s : DBState) (taskId : Nat) (newAssignee : Nat) : DBState :=
  match findTask s taskId with
  | none => s
  | some _ =>
    { s with tasks := s.tasks.map (fun t =>
        if t.id = taskId then { t with assignedTo := some newAssignee } else t) }

/-- The data an apply-loop iteration extracts from its three lookups: the
source's id, the destination's id and the task's estimated hours (`0` for a
missing estimate, matching the no-op workload branch). -/
def moveData (s : DBState) (m : Move) : Option (Nat × Nat × ℚ) :=
  match findTask s m.taskId, findUserByUsername s m.fromUser, findUser s m.toUserId with
  | some t, some ou, some nu => some (ou.id, nu.id, t.estimatedHours.getD 0)
  | _, _, _ => none

/-- Net workload change `applyMove` inflicts on user `uid`. -/
def moveDelta (s : DBState) (m : Move) (uid : Nat) : ℚ :=
  match moveData s m with
  | some (src, dst, h) => (if uid = dst then h else 0) - (if uid = src then h else 0)
  | none => 0

/-- Net workload change a whole move list inflicts on user `uid`, measured
against the starting state (estimated hours and user identities are stable
under the apply loop). -/
def netDelta (s : DBState) (moves : List Move) (uid : Nat) : ℚ :=
  (moves.map (fun m => moveDelta s m uid)).sum

/-- Hours flowing out of user `uid` under the move list. -/
def outflow (s : DBState) (moves : List Move) (uid : Nat) : ℚ :=
  (moves.map (fun m =>
    match moveData s m with
    | some (src, _, h) => if uid = src then h else 0
    | none => 0)).sum

/-- Hours flowing into user `uid` under the move list. -/
def inflow (s : DBState) (moves : List Move) (uid : Nat) : ℚ :=
  (moves.map (fun m =>
    match moveData s m with
    | some (_, dst, h) => if uid = dst then h else 0
    | none => 0)).sum

/-- The assignee recorded on the (first) task row with the given id:
`none` when no such task exists. -/
def assigneeOf (s : DBState) (tid : Nat) : Option (Option Nat) :=
  (findTask s tid).map (fun t => t.assignedTo)

/-- `moveData` expressed on the identity-projections of the three lookups
(task id / estimated hours, user id / username): the apply loop never touches
these projections, which is what makes its per-move data stable. -/
def moveDataP (tp : Option (Nat × Option ℚ)) (op np : Option (Nat × String)) :
    Option (Nat × Nat × ℚ) :=
  match tp, op, np with
  | some t, some ou, some nu => some (ou.1, nu.1, t.2.getD 0)
  | _, _, _ => none

/-- Decidable per-move side condition of the apply loop: the task, the source
(by username) and the destination (by id) all resolve, and the destination
differs from the task's current assignee. -/
def moveOk (s : DBState) (m : Move) : Bool :=
  match findTask s m.taskId, findUserByUsername s m.fromUser, findUser s m.toUserId with
  | some t, some _, some nu => decide (t.assignedTo ≠ some nu.id)
  | _, _, _ => false

/-! ## Team wellbeing summary (`app/services/sentiment_analysis.py:115-240`) -/

/-- The most recent wellbeing check of a user inside the analysis window:
`filter(user_id == uid, created_at >= since).order_by(created_at.desc()).first()`.
The fold keeps the first-encountered row among those with maximal timestamp,
matching a stable descending sort of the stored rows. -/
def lastCheckSince (s : DBState) (uid : Nat) (since : ℤ) : Option WellbeingCheck :=
  (s.checks.filter (fun c => decide (c.userId = uid) && decide (since ≤ c.createdAt))).foldl
    (fun acc c =>
      match acc with
      | none => some c
      | some b => if b.createdAt < c.createdAt then some c else some b)
    none

/-- The per-member entry appended to `members_analysis`
(`app/services/sentiment_analysis.py:169-182`).  The `burnout_risk` key is
present only when the stored risk is truthy. -/
structure MemberData where
  userId : Nat
  name : String
  mood : String
  moodEmojiField : String
  energy : String
  energyBarsField : String
  workload : ℚ
  isConcerningField : Bool
  burnoutRisk : Option ℤ
deriving DecidableEq, Repr

/-- An entry of the summary's `alerts` list.  The human-readable `message`
string is presentation-only (number formatting of workload/risk) and omitted. -/
structure Alert where
  severity : String
  user : String
  alertKind : String
deriving DecidableEq, Repr

/-- The sort key `{"high": 3, "medium": 2, "low": 1}.get(severity, 0)`
(`app/services/sentiment_analysis.py:230-234`). -/
def severityRank (a : Alert) : Nat :=
  if a.severity = "high" then 3
  else if a.severity = "medium" then 2
  else if a.severity = "low" then 1
  else 0

/-- Stable descending insertion for the alert sort
(`alerts.sort(key=severity, reverse=True)` — Python's sort is stable). -/
def insertAlertDesc (a : Alert) : List Alert → List Alert
  | [] => [a]
  | x :: xs =>
    if severityRank x < severityRank a then a :: x :: xs
    else x :: insertAlertDesc a xs

/-- Stable sort of the alerts, descending by severity rank. -/
def sortAlertsDesc : List Alert → List Alert
  | [] => []
  | a :: as' => insertAlertDesc a (sortAlertsDesc as')

/-- The alerts one member contributes, in emission order
(`app/services/sentiment_analysis.py:180-210`): a high burnout-risk alert
when the stored risk is truthy and above 70, an overload alert when the
member is overloaded, a wellbeing alert when the check is concerning.  All
three sit inside the `if last_check:` block. -/
def memberAlerts (m : User) (c : WellbeingCheck) : List Alert :=
  (match c.aiBurnoutRisk with
   | some r => if r ≠ 0 then (if 70 < r then [⟨"high", m.fullName, "burnout_risk"⟩] else []) else []
   | none => [])
  ++ (if isOverloaded m then [⟨"medium", m.fullName, "overload"⟩] else [])
  ++ (if isConcerning c then [⟨"medium", m.fullName, "wellbeing"⟩] else [])

/-- The `member_data` dictionary built for a member with a recent check. -/
def memberData (m : User) (c : WellbeingCheck) : MemberData :=
  { userId := m.id
    name := m.fullName
    mood := moodValue c.mood
    moodEmojiField := moodEmoji c.mood
    energy := energyValue c.energy
    energyBarsField := energyBars c.energy
    workload := round1 (workloadPercentage m)
    isConcerningField := isConcerning c
    burnoutRisk := match c.aiBurnoutRisk with
      | some r => if r ≠ 0 then some r else none
      | none => none }

/-- The summary fields accumulated by the member loop and the closing
average/trend computations (everything of
`SentimentAnalysisService.get_team_wellbeing_summary` except `team_size`,
`period_days` and the error branch). -/
structure SummaryCore where
  membersAnalysis : List MemberData
  alerts : List Alert
  avgMood : Option ℚ
  avgEnergy : Option ℚ
  avgBurnoutRisk : Option ℚ
  trend : String
deriving DecidableEq, Repr

/-- The member loop of `get_team_wellbeing_summary`
(`app/services/sentiment_analysis.py:151-234`): members without a check in
the window are skipped entirely; the others contribute their scores, analysis
entry and alerts.  Averages are over the contributing members only, rounded
to one decimal; the trend is judged on the average mood. -/
def summarize (s : DBState) (since : ℤ) (members : List User) : SummaryCore :=
  let withChecks : List (User × WellbeingCheck) :=
    members.filterMap (fun m => (lastCheckSince s m.id since).map (fun c => (m, c)))
  let moodScores : List ℤ := withChecks.map (fun p => moodToScore p.2.mood)
  let energyScores : List ℤ := withChecks.map (fun p => energyToScore p.2.energy)
  let burnoutRisks : List ℤ := withChecks.filterMap (fun p =>
    match p.2.aiBurnoutRisk with
    | some r => if r ≠ 0 then some r else none
    | none => none)
  { membersAnalysis := withChecks.map (fun p => memberData p.1 p.2)
    alerts := sortAlertsDesc (withChecks.flatMap (fun p => memberAlerts p.1 p.2))
    avgMood :=
      if moodScores.isEmpty then none
      else some (round1 ((moodScores.sum : ℚ) / (moodScores.length : ℚ)))
    avgEnergy :=
      if energyScores.isEmpty then none
      else some (round1 ((energyScores.sum : ℚ) / (energyScores.length : ℚ)))
    avgBurnoutRisk :=
      if burnoutRisks.isEmpty then none
      else some (round1 ((burnoutRisks.sum : ℚ) / (burnoutRisks.length : ℚ)))
    trend :=
      if moodScores.isEmpty then "stable"
      else
        let avg : ℚ := (moodScores.sum : ℚ) / (moodScores.length : ℚ)
        if 4 ≤ avg then "positive" else if avg ≤ 2 then "concerning" else "stable" }

/-- The full summary: `team_size` and the loop results. -/
structure TeamSummary where
  teamSize : Nat
  core : SummaryCore
deriving DecidableEq, Repr

/-- `SentimentAnalysisService.get_team_wellbeing_summary`
(`app/services/sentiment_analysis.py:115-240`): `none` models the
`{"error": "Equipe não encontrada"}` branch for an empty team. -/
def teamWellbeingSummary (s : DBState) (teamId : Nat) (since : ℤ) : Option TeamSummary :=
  let team := s.users.filter (fun u => decide (u.managerId = some teamId) && u.isActive)
  if team.isEmpty then none
  else some { teamSize := team.length, core := summarize s since team }

/-! ## Concrete evaluation states -/

/-- A work item literal with only the distribution-relevant fields set. -/
def mkTask (id : Nat) (title : String) (prio : TaskPriority) (assignee : Option Nat)
    (hours : Option ℚ) : Task :=
  { id := id, title := title, status := .pending, priority := prio
    assignedTo := assignee, estimatedHours := hours
    aiMatchScore := none, aiRecommendationReason := none }

/-- Four pending work items of user 7, one of each priority, for evaluating
the `ORDER BY priority DESC` truncation. -/
def prioDemoState : DBState :=
  { users := []
    tasks := [mkTask 1 "alta" .high (some 7) none, mkTask 2 "baixa" .low (some 7) none,
              mkTask 3 "media" .medium (some 7) none, mkTask 4 "urgente" .urgent (some 7) none]
    checks := [] }

/-- A two-person team for evaluating the apply loop: Alice (id 1) overloaded
at 38/40, Bob (id 2) at 10/40, a pending 4-hour task assigned to Alice. -/
def applyDemoState : DBState :=
  { users := [⟨1, "alice", "Alice", .colaborador, true, some 10, 40, 38⟩,
              ⟨2, "bob", "Bob", .colaborador, true, some 10, 40, 10⟩]
    tasks := [mkTask 5 "relatorio" .urgent (some 1) (some 4)]
    checks := [] }

/-- A proposed move of that task from Alice to Bob. -/
def applyDemoMove : Move :=
  { taskId := 5, taskTitle := "relatorio", fromUser := "alice", toUser := "Bob"
    toUserId := 2, reason := "motivo", matchScore := 80 }

/-- An oracle whose parsed reply names a user id (999) that does not exist in
the database — the reply is untrusted and nothing validates the id. -/
def hallucinatingOracle : Oracle :=
  fun _ _ => .ok { recommendedUserId := 999, recommendedUserName := "Fantasma"
                   matchScore := 88, reasoning := "alucinado"
                   pros := [], cons := [], warnings := [] }

/-- A team of manager 10: Ana (id 1) fully loaded at 10/10 with a pending
4-hour task, Beto (id 2) idle at 0/10. -/
def hallucinationDemoState : DBState :=
  { users := [⟨1, "ana", "Ana", .colaborador, true, some 10, 10, 10⟩,
              ⟨2, "beto", "Beto", .colaborador, true, some 10, 10, 0⟩]
    tasks := [mkTask 100 "mover" .urgent (some 1) (some 4)]
    checks := [] }

/-- An oracle whose call always raises, forcing the deterministic fallback. -/
def raisingOracle : Oracle :=
  fun _ _ => .raised

/-- A team of manager 10 whose overloaded member Ana books 10 hours of load
but holds a pending 15-hour item: loads are all non-negative, yet moving the
item away drives Ana's load negative. -/
def overbookedDemoState : DBState :=
  { users := [⟨1, "ana", "Ana", .colaborador, true, some 10, 10, 10⟩,
              ⟨2, "beto", "Beto", .colaborador, true, some 10, 100, 0⟩]
    tasks := [mkTask 100 "pesado" .urgent (some 1) (some 15)]
    checks := [] }

/-- A user booking only 2 hours of load while holding a pending 5-hour task:
deleting the task clamps the load at 0 instead of subtracting the full 5. -/
def clampDemoState : DBState :=
  { users := [⟨1, "ana", "Ana", .colaborador, true, none, 40, 2⟩]
    tasks := [mkTask 9 "limpar" .medium (some 1) (some 5)]
    checks := [] }

/-- A team of two overloaded members (95% and 97.5%), of whom only Carla has
a wellbeing check inside the window (`since = 50`). -/
def wellbeingDemoState : DBState :=
  { users := [⟨1, "carla", "Carla", .colaborador, true, some 10, 40, 38⟩,
              ⟨2, "davi", "Davi", .colaborador, true, some 10, 40, 39⟩]
    tasks := []
    checks := [⟨1, .neutral, .medium, none, 100⟩] }

/-! ## Theorems -/

/-- **C9.**  For every capacity/load pair — capacity 0 and loads exceeding
capacity included — `workload_percentage` is `current_workload / capacity * 100`
and `0` when the capacity is `0`; `is_overloaded` holds exactly when the
percentage exceeds 90; `available_hours` is `max(0, capacity - load)`.  The
three operations are total Lean functions of the user row alone (pure, no
error conditions). -/
theorem C9_workload_model (u : User) :
    (u.workloadCapacity = 0 → workloadPercentage u = 0)
    ∧ (u.workloadCapacity ≠ 0 →
        workloadPercentage u = u.currentWorkload / u.workloadCapacity * 100)
    ∧ (isOverloaded u = true ↔ 90 < workloadPercentage u)
    ∧ availableHours u = max 0 (u.workloadCapacity - u.currentWorkload) := by
  refine ⟨fun h => ?_, fun h => ?_, ?_, rfl⟩
  · simp [workloadPercentage, h]
  · simp [workloadPercentage, h]
  · simp [isOverloaded]

/-- **C9 witness.**  The theorem evaluated at capacity 0 (load 5) and at the
spec's example pair capacity 40 / load 38. -/
theorem C9_workload_model_witness :
    workloadPercentage ⟨1, "zc", "Zero Cap", .colaborador, true, none, 0, 5⟩ = 0
    ∧ workloadPercentage ⟨2, "aa", "A", .colaborador, true, none, 40, 38⟩ = 95
    ∧ isOverloaded ⟨2, "aa", "A", .colaborador, true, none, 40, 38⟩ = true
    ∧ availableHours ⟨2, "aa", "A", .colaborador, true, none, 40, 38⟩ = 2 := by
  refine ⟨(C9_workload_model _).1 rfl, ?_, ?_, ?_⟩
  · rw [(C9_workload_model _).2.1 (by norm_num)]; norm_num
  · exact (C9_workload_model ⟨2, "aa", "A", .colaborador, true, none, 40, 38⟩).2.2.1.mpr
      (by norm_num [workloadPercentage])
  · rw [(C9_workload_model _).2.2.2]; norm_num

/-- **C5.**  A rebalance invoked as a dry run (`dry_run = true`, the default)
returns the state unchanged — every user row (hence every load) and every
task row (hence every assignee, status and AI-provenance field) is exactly as
before, whatever the team, the oracle replies and the proposed-move list —
and the report, when the team exists, says `applied = false`. -/
theorem C5_dry_run_no_mutation (oracle : Oracle) (s : DBState) (teamId : Nat) :
    (rebalanceTeamWorkload oracle s teamId true).1 = s
    ∧ ((rebalanceTeamWorkload oracle s teamId true).2.elim True fun r => r.applied = false) := by
  simp only [rebalanceTeamWorkload, Bool.not_true, Bool.false_and, Bool.false_eq_true,
    if_false]
  split
  · exact ⟨rfl, trivial⟩
  · exact ⟨rfl, rfl⟩

/-- **C4.**  Over the integer mood/energy scores the service produces, the
declining-trend test fires exactly when the mean of the most recent 3 scores
is at least `0.5` below the mean of the earliest 3 (for such integer scores a
gap of exactly `0.5` cannot occur, so the code's strict `<` coincides with
the spec's "at least"); and with fewer than 3 checks in the window the
burnout-pattern detector returns the explicit insufficient-data result. -/
theorem C4_declining_trend :
    (∀ scores : List ℤ, 3 ≤ scores.length →
      (checkDecliningTrend scores = true ↔
        ((scores.drop (scores.length - 3)).sum : ℚ) / 3
          ≤ ((scores.take 3).sum : ℚ) / 3 - 1/2))
    ∧ ∀ (checks : List WellbeingCheck) (threshold : ℤ), checks.length < 3 →
        detectBurnoutPatterns checks threshold = .insufficientData := by
  constructor
  · intro scores hlen
    have hnot : ¬ scores.length < 3 := by omega
    have hdrop : (scores.drop (scores.length - 3)).length = 3 := by
      rw [List.length_drop]; omega
    have htake : (scores.take 3).length = 3 := by
      rw [List.length_take]; omega
    simp only [checkDecliningTrend, if_neg hnot, hdrop, htake, decide_eq_true_iff,
      Nat.cast_ofNat]
    have key : ∀ a b : ℤ,
        (((a : ℚ)) / 3 < ((b : ℚ)) / 3 - 1/2) ↔ (((a : ℚ)) / 3 ≤ ((b : ℚ)) / 3 - 1/2) := by
      intro a b
      rw [show ((a:ℚ)/3) = ((2*a : ℤ) : ℚ)/6 by push_cast; ring,
          show ((b:ℚ)/3 - 1/2) = ((2*b - 3 : ℤ) : ℚ)/6 by push_cast; ring,
          div_lt_div_iff_of_pos_right (by norm_num),
          div_le_div_iff_of_pos_right (by norm_num),
          Int.cast_lt, Int.cast_le]
      omega
    exact key _ _
  · intro checks threshold h
    unfold detectBurnoutPatterns
    rw [if_pos h]

/-- **C4 witness.**  The spec's examples: mood scores `5,5,5,1,1,1` are
declining (recent mean 1 is at least `0.5` below older mean 5) while the flat
sequence `3,3,3,3,3,3` is not; and two checks yield the insufficient-data
result. -/
theorem C4_declining_trend_witness :
    checkDecliningTrend [5, 5, 5, 1, 1, 1] = true
    ∧ checkDecliningTrend [3, 3, 3, 3, 3, 3] = false
    ∧ detectBurnoutPatterns
        [⟨9, .neutral, .medium, none, 0⟩, ⟨9, .neutral, .medium, none, 1⟩] 70
        = .insufficientData := by
  refine ⟨?_, ?_, (C4_declining_trend.2 _ 70 (by decide))⟩
  · exact (C4_declining_trend.1 [5, 5, 5, 1, 1, 1] (by decide)).mpr (by norm_num)
  · by_contra hc
    have := (C4_declining_trend.1 [3, 3, 3, 3, 3, 3] (by decide)).mp
      (by revert hc; cases h : checkDecliningTrend [3, 3, 3, 3, 3, 3] <;> simp [h])
    norm_num at this

/-- **C3.**  Evaluating the rebalancer's considered-task selection on a member
with four pending items, one per priority: `ORDER BY priority DESC` on the
string-backed enum column sorts by the persisted labels
(`"URGENT" > "MEDIUM" > "LOW" > "HIGH"` lexicographically), so the top 3 are
the urgent, medium and low items while the high-priority item — semantically
above both medium and low — is left unconsidered, contradicting the intended
descending-priority order. -/
theorem C3_priority_order_bug :
    (consideredTasks prioDemoState 7).map Task.priority = [.urgent, .medium, .low]
    ∧ TaskPriority.high ∈ (prioDemoState.tasks.filter
        (fun t => decide (t.assignedTo = some 7) && decide (t.status = .pending))).map Task.priority
    ∧ TaskPriority.high ∉ (consideredTasks prioDemoState 7).map Task.priority
    ∧ priorityRank .low < priorityRank .high
    ∧ priorityRank .medium < priorityRank .high := by
  decide

/-- The scan of Python's `min(candidates, key=...)` never yields a key larger
than any element's key. -/
lemma minWorkloadFirst_le (c : Candidate) (cs : List Candidate) :
    ∀ d ∈ c :: cs, (minWorkloadFirst c cs).workload ≤ d.workload := by
  induction cs generalizing c with
  | nil =>
    intro d hd
    simp only [List.mem_singleton] at hd
    simp [minWorkloadFirst, hd]
  | cons e es ih =>
    intro d hd
    have hstep : minWorkloadFirst c (e :: es)
        = minWorkloadFirst (if e.workload < c.workload then e else c) es := rfl
    have hle_c : (if e.workload < c.workload then e else c).workload ≤ c.workload := by
      split <;> [exact le_of_lt (by assumption); exact le_refl _]
    have hle_e : (if e.workload < c.workload then e else c).workload ≤ e.workload := by
      split <;> [exact le_refl _; exact le_of_not_lt (by assumption)]
    have hhead := ih (if e.workload < c.workload then e else c)
    simp only [List.mem_cons] at hd
    rcases hd with rfl | rfl | hd
    · rw [hstep]
      exact le_trans (hhead _ (List.mem_cons_self _ _)) hle_c
    · rw [hstep]
      exact le_trans (hhead _ (List.mem_cons_self _ _)) hle_e
    · rw [hstep]
      exact hhead d (List.mem_cons_of_mem _ hd)

/-- The scan of Python's `min(candidates, key=...)` returns the
*first-encountered* minimum: every candidate listed before the returned one
has a strictly larger key. -/
lemma minWorkloadFirst_first (c : Candidate) (cs : List Candidate) :
    ∃ pre post, c :: cs = pre ++ (minWorkloadFirst c cs) :: post
      ∧ ∀ d ∈ pre, (minWorkloadFirst c cs).workload < d.workload := by
  induction cs generalizing c with
  | nil => exact ⟨[], [], rfl, by simp⟩
  | cons e es ih =>
    have hstep : minWorkloadFirst c (e :: es)
        = minWorkloadFirst (if e.workload < c.workload then e else c) es := rfl
    by_cases he : e.workload < c.workload
    · rw [hstep, if_pos he]
      obtain ⟨pre, post, hdecomp, hpre⟩ := ih e
      have hb_lt_c : (minWorkloadFirst e es).workload < c.workload :=
        lt_of_le_of_lt (minWorkloadFirst_le e es _ (List.mem_cons_self _ _)) he
      refine ⟨c :: pre, post, ?_, ?_⟩
      · rw [List.cons_append, ← hdecomp]
      · intro d hd
        simp only [List.mem_cons] at hd
        rcases hd with rfl | hd
        · exact hb_lt_c
        · exact hpre d hd
    · rw [hstep, if_neg he]
      obtain ⟨pre, post, hdecomp, hpre⟩ := ih c
      cases pre with
      | nil =>
        simp only [List.nil_append, List.cons.injEq] at hdecomp
        refine ⟨[], e :: es, ?_, by simp⟩
        rw [List.nil_append, ← hdecomp.1]
      | cons p ps =>
        simp only [List.cons_append, List.cons.injEq] at hdecomp
        have hb_lt_c : (minWorkloadFirst c es).workload < c.workload := by
          have h' := hpre p (List.mem_cons_self p ps)
          rwa [← hdecomp.1] at h'
        refine ⟨c :: e :: ps, post, ?_, ?_⟩
        · rw [List.cons_append, List.cons_append, ← hdecomp.2]
        · intro d hd
          simp only [List.mem_cons] at hd
          rcases hd with rfl | rfl | hd
          · exact hb_lt_c
          · exact lt_of_lt_of_le hb_lt_c (le_of_not_lt he)
          · exact hpre d (List.mem_cons_of_mem _ hd)

/-- **C1.**  `GeminiService._fallback_recommendation`: an empty candidate
list yields the explicit `"Nenhum candidato disponível"` error; a non-empty
list always yields a recommendation whose candidate is one of minimal
`workload` among the snapshots — the first-encountered one on ties — with a
synthesized match score of exactly 50 and a non-empty warnings list. -/
theorem C1_fallback_recommendation (candidates : List Candidate) :
    (candidates = [] →
      fallbackRecommendation candidates = .error "Nenhum candidato disponível")
    ∧ ∀ c cs, candidates = c :: cs →
        ∃ best,
          fallbackRecommendation candidates = .ok (mkFallbackRec best)
          ∧ best ∈ candidates
          ∧ (∀ d ∈ candidates, best.workload ≤ d.workload)
          ∧ (∃ pre post, candidates = pre ++ best :: post
              ∧ ∀ d ∈ pre, best.workload < d.workload)
          ∧ (mkFallbackRec best).recommendedUserId = best.id
          ∧ (mkFallbackRec best).recommendedUserName = best.name
          ∧ (mkFallbackRec best).matchScore = 50
          ∧ (mkFallbackRec best).warnings ≠ [] := by
  constructor
  · intro h; rw [h]; rfl
  · intro c cs h
    subst h
    obtain ⟨pre, post, hdecomp, hpre⟩ := minWorkloadFirst_first c cs
    refine ⟨minWorkloadFirst c cs, rfl, ?_, minWorkloadFirst_le c cs, ⟨pre, post, hdecomp, hpre⟩,
      rfl, rfl, rfl, by simp [mkFallbackRec]⟩
    rw [hdecomp]
    exact List.mem_append_right _ (List.mem_cons_self _ _)

/-- **C1 witness.**  The theorem at a 3-candidate list with a workload tie
between the second and third candidates: the fallback recommends the second
(first-encountered minimum) with score 50 and a warning. -/
theorem C1_fallback_recommendation_witness :
    ∃ best,
      fallbackRecommendation [⟨1, "Ana", 80⟩, ⟨2, "Bia", 20⟩, ⟨3, "Caio", 20⟩]
          = .ok (mkFallbackRec best)
      ∧ best ∈ [Candidate.mk 1 "Ana" 80, ⟨2, "Bia", 20⟩, ⟨3, "Caio", 20⟩]
      ∧ (∀ d ∈ [Candidate.mk 1 "Ana" 80, ⟨2, "Bia", 20⟩, ⟨3, "Caio", 20⟩],
          best.workload ≤ d.workload)
      ∧ (∃ pre post, [Candidate.mk 1 "Ana" 80, ⟨2, "Bia", 20⟩, ⟨3, "Caio", 20⟩]
            = pre ++ best :: post ∧ ∀ d ∈ pre, best.workload < d.workload)
      ∧ (mkFallbackRec best).recommendedUserId = best.id
      ∧ (mkFallbackRec best).recommendedUserName = best.name
      ∧ (mkFallbackRec best).matchScore = 50
      ∧ (mkFallbackRec best).warnings ≠ [] :=
  (C1_fallback_recommendation [⟨1, "Ana", 80⟩, ⟨2, "Bia", 20⟩, ⟨3, "Caio", 20⟩]).2
    ⟨1, "Ana", 80⟩ [⟨2, "Bia", 20⟩, ⟨3, "Caio", 20⟩] rfl

/-- **C2 counterexample.**  An oracle reply whose (fence-stripped) text is not
valid JSON is answered with the distinct
`{"error": ..., "raw_response": ...}` dictionary, *not* with the fallback
recommendation returned when the oracle call raises: `json.JSONDecodeError`
is caught inside `_parse_json_response`, so the outer `except` of
`generate_task_recommendation` never runs. -/
theorem C2_malformed_reply_counterexample :
    (fun _ => (none : Option Json)) (stripCodeFences "resposta inválida") = none
    ∧ generateTaskRecommendation (fun _ => none) (.text "resposta inválida") [⟨1, "Ana", 25⟩]
        = .parseError "resposta inválida"
    ∧ generateTaskRecommendation (fun _ => none) .raises [⟨1, "Ana", 25⟩]
        = .fallback (mkFallbackRec ⟨1, "Ana", 25⟩)
    ∧ GeminiTaskResult.parseError "resposta inválida"
        ≠ .fallback (mkFallbackRec ⟨1, "Ana", 25⟩) :=
  ⟨rfl, rfl, rfl, fun h => GeminiTaskResult.noConfusion h⟩

/-- **C2 (amended).**  A reply whose stripped text `json.loads` rejects is
surfaced to the caller as the parse-error dictionary carrying the raw reply —
never as the fallback — while an exception from the oracle call itself is
answered with the deterministic fallback recommendation (minimum-workload
candidate, score 50). -/
theorem C2_malformed_reply_distinct (loads : String → Option Json) (t : String)
    (candidates : List Candidate) (h : loads (stripCodeFences t) = none) :
    generateTaskRecommendation loads (.text t) candidates = .parseError t
    ∧ ∀ c cs, candidates = c :: cs →
        generateTaskRecommendation loads .raises candidates
          = .fallback (mkFallbackRec (minWorkloadFirst c cs)) := by
  constructor
  · simp [generateTaskRecommendation, parseJsonResponse, h]
  · intro c cs hc
    subst hc
    rfl

/-- **C2 witness.**  The amended theorem evaluated at a parser rejecting
everything, a concrete reply text and a one-candidate list. -/
theorem C2_malformed_reply_distinct_witness :
    generateTaskRecommendation (fun _ => none) (.text "### sem json") [⟨1, "Ana", 25⟩]
        = .parseError "### sem json"
    ∧ generateTaskRecommendation (fun _ => none) .raises [⟨1, "Ana", 25⟩]
        = .fallback (mkFallbackRec (minWorkloadFirst ⟨1, "Ana", 25⟩ [])) :=
  ⟨(C2_malformed_reply_distinct (fun _ => none) "### sem json" [⟨1, "Ana", 25⟩] rfl).1,
   (C2_malformed_reply_distinct (fun _ => none) "### sem json" [⟨1, "Ana", 25⟩] rfl).2
     ⟨1, "Ana", 25⟩ [] rfl⟩

/-! ### List bookkeeping for the load accountancy -/

/-- `find?` commutes with an element-wise update that does not affect the
predicate. -/
lemma find?_map_eq {α : Type} (g : α → α) (p : α → Bool) (hp : ∀ x, p (g x) = p x) :
    ∀ l : List α, (l.map g).find? p = (l.find? p).map g := by
  intro l
  induction l with
  | nil => rfl
  | cons x xs ih =>
    by_cases hpx : p x = true
    · rw [List.map_cons, List.find?_cons_of_pos _ (by rw [hp]; exact hpx),
        List.find?_cons_of_pos _ hpx, Option.map_some']
    · rw [List.map_cons, List.find?_cons_of_neg _ (by rw [hp]; exact hpx),
        List.find?_cons_of_neg _ hpx, ih]

/-- Two lists with equal projections agree on `find?` for any predicate that
factors through the projection. -/
lemma find?_proj_congr {α β : Type} (f : α → β) (p : β → Bool) :
    ∀ {l₁ l₂ : List α}, l₁.map f = l₂.map f →
      (l₁.find? (fun x => p (f x))).map f = (l₂.find? (fun x => p (f x))).map f := by
  intro l₁
  induction l₁ with
  | nil =>
    intro l₂ h
    cases l₂ with
    | nil => rfl
    | cons y ys => simp at h
  | cons x xs ih =>
    intro l₂ h
    cases l₂ with
    | nil => simp at h
    | cons y ys =>
      simp only [List.map_cons, List.cons.injEq] at h
      obtain ⟨hxy, hrest⟩ := h
      by_cases hp : p (f x) = true
      · rw [List.find?_cons_of_pos (p := fun z => p (f z)) xs hp,
          List.find?_cons_of_pos (p := fun z => p (f z)) ys (by rw [hxy] at hp; exact hp),
          Option.map_some', Option.map_some', hxy]
      · rw [List.find?_cons_of_neg (p := fun z => p (f z)) xs (by exact hp),
          List.find?_cons_of_neg (p := fun z => p (f z)) ys (by rw [hxy] at hp; exact hp)]
        exact ih hrest

/-- A workload update keeps every user's id and username. -/
lemma mapLoad_proj (us : List User) (v : Nat) (f : ℚ → ℚ) :
    (mapLoad us v f).map (fun u => (u.id, u.username)) = us.map (fun u => (u.id, u.username)) := by
  induction us with
  | nil => rfl
  | cons u us ih =>
    simp only [mapLoad, List.map_cons] at *
    rw [ih]
    congr 1
    split <;> rfl

/-- A workload update keeps the id column. -/
lemma mapLoad_map_id (us : List User) (v : Nat) (f : ℚ → ℚ) :
    (mapLoad us v f).map User.id = us.map User.id := by
  induction us with
  | nil => rfl
  | cons u us ih =>
    simp only [mapLoad, List.map_cons] at *
    rw [ih]
    congr 1
    split <;> rfl

/-- A reassignment keeps every task's id and estimated hours. -/
lemma setTaskAssignee_proj (ts : List Task) (tid uid : Nat) :
    (setTaskAssignee ts tid uid).map (fun t => (t.id, t.estimatedHours))
      = ts.map (fun t => (t.id, t.estimatedHours)) := by
  induction ts with
  | nil => rfl
  | cons t ts ih =>
    simp only [setTaskAssignee, List.map_cons] at *
    rw [ih]
    congr 1
    split <;> rfl

/-- Sums of pointwise sums split. -/
lemma sum_map_add {α : Type} (l : List α) (f g : α → ℚ) :
    (l.map (fun x => f x + g x)).sum = (l.map f).sum + (l.map g).sum := by
  induction l with
  | nil => simp
  | cons x xs ih => simp only [List.map_cons, List.sum_cons, ih]; ring

/-- One `loadOf` unfolding step. -/
lemma loadOf_cons (v : User) (vs : List User) (uid : Nat) :
    loadOf (v :: vs) uid
      = (if v.id = uid then v.currentWorkload else 0) + loadOf vs uid := by
  simp [loadOf]

/-- One `countId` unfolding step. -/
lemma countId_cons (v : User) (vs : List User) (uid : Nat) :
    countId (v :: vs) uid = (if v.id = uid then 1 else 0) + countId vs uid := by
  simp [countId]

/-- An id absent from the table books no load. -/
lemma loadOf_eq_zero_of_not_mem {us : List User} {uid : Nat}
    (h : uid ∉ us.map User.id) : loadOf us uid = 0 := by
  induction us with
  | nil => rfl
  | cons u us ih =>
    simp only [List.map_cons, List.mem_cons, not_or] at h
    rw [loadOf_cons, if_neg (fun hc => h.1 hc.symm), ih h.2, zero_add]

/-- An id absent from the table has row count 0. -/
lemma countId_eq_zero_of_not_mem {us : List User} {uid : Nat}
    (h : uid ∉ us.map User.id) : countId us uid = 0 := by
  induction us with
  | nil => rfl
  | cons u us ih =>
    simp only [List.map_cons, List.mem_cons, not_or] at h
    rw [countId_cons, if_neg (fun hc => h.1 hc.symm), ih h.2, zero_add]

/-- Under primary-key uniqueness an existing user's id is carried by exactly
one row. -/
lemma countId_eq_one {us : List User} {u : User}
    (hnd : (us.map User.id).Nodup) (hu : u ∈ us) : countId us u.id = 1 := by
  induction us with
  | nil => simp at hu
  | cons v vs ih =>
    simp only [List.map_cons, List.nodup_cons] at hnd
    rw [countId_cons]
    rcases List.mem_cons.mp hu with rfl | hu'
    · rw [if_pos rfl, countId_eq_zero_of_not_mem hnd.1, add_zero]
    · have hne : v.id ≠ u.id := fun hc => hnd.1 (hc ▸ List.mem_map_of_mem User.id hu')
      rw [if_neg hne, ih hnd.2 hu', zero_add]

/-- `loadOf` after a workload update, as a sum over the original rows. -/
lemma loadOf_mapLoad_eq_sum (us : List User) (v : Nat) (f : ℚ → ℚ) (uid : Nat) :
    loadOf (mapLoad us v f) uid
      = (us.map (fun u => if u.id = uid then
          (if u.id = v then f u.currentWorkload else u.currentWorkload) else 0)).sum := by
  rw [loadOf, mapLoad, List.map_map]
  congr 1
  apply List.map_congr_left
  intro u _
  by_cases h : u.id = v <;> simp [Function.comp, h]

/-- Effect of `current_workload += δ` on the booked load of any id. -/
lemma loadOf_addLoad (us : List User) (v : Nat) (δ : ℚ) (uid : Nat) :
    loadOf (addLoad us v δ) uid
      = loadOf us uid + (if uid = v then δ * countId us v else 0) := by
  rw [addLoad, loadOf_mapLoad_eq_sum]
  by_cases h3 : uid = v
  · subst h3
    rw [if_pos rfl, countId, loadOf,
      show (us.map (fun u => if u.id = uid then
          (if u.id = uid then u.currentWorkload + δ else u.currentWorkload) else 0))
        = us.map (fun u => (if u.id = uid then u.currentWorkload else 0)
            + δ * (if u.id = uid then (1 : ℚ) else 0)) from
        List.map_congr_left (fun u _ => by by_cases h : u.id = uid <;> simp [h]),
      sum_map_add, List.sum_map_mul_left]
  · rw [if_neg h3, add_zero, loadOf]
    congr 1
    apply List.map_congr_left
    intro u _
    by_cases h1 : u.id = uid
    · rw [if_pos h1, if_pos h1, if_neg (h1 ▸ h3 : ¬ u.id = v)]
    · rw [if_neg h1, if_neg h1]

/-- Effect of `current_workload += δ` on the system-wide load. -/
lemma sumLoads_addLoad (us : List User) (v : Nat) (δ : ℚ) :
    sumLoads (addLoad us v δ) = sumLoads us + δ * countId us v := by
  rw [addLoad, sumLoads, mapLoad, List.map_map, countId, sumLoads,
    show (us.map (User.currentWorkload ∘ fun u =>
        if u.id = v then { u with currentWorkload := u.currentWorkload + δ } else u))
      = us.map (fun u => u.currentWorkload + δ * (if u.id = v then (1 : ℚ) else 0)) from
      List.map_congr_left (fun u _ => by by_cases h : u.id = v <;> simp [Function.comp, h]),
    sum_map_add, List.sum_map_mul_left]

/-- A workload update of another id does not change a user's booked load. -/
lemma loadOf_mapLoad_ne (us : List User) (v : Nat) (f : ℚ → ℚ) (uid : Nat)
    (h : uid ≠ v) : loadOf (mapLoad us v f) uid = loadOf us uid := by
  rw [loadOf_mapLoad_eq_sum, loadOf]
  congr 1
  apply List.map_congr_left
  intro u _
  by_cases h1 : u.id = uid
  · rw [if_pos h1, if_pos h1, if_neg (h1 ▸ h : ¬ u.id = v)]
  · rw [if_neg h1, if_neg h1]

/-- Under primary-key uniqueness the booked load of a found user is that
row's `current_workload`. -/
lemma loadOf_eq_of_find {us : List User} {uid : Nat} {u : User}
    (hnd : (us.map User.id).Nodup)
    (hfind : us.find? (fun x => decide (x.id = uid)) = some u) :
    loadOf us uid = u.currentWorkload := by
  induction us with
  | nil => simp at hfind
  | cons v vs ih =>
    simp only [List.map_cons, List.nodup_cons] at hnd
    rw [loadOf_cons]
    by_cases hv : v.id = uid
    · have hvu : v = u := by
        have heq := List.find?_cons_of_pos (p := fun x => decide (x.id = uid)) vs
          (by simpa using hv)
        rw [heq] at hfind
        exact Option.some.inj hfind
      subst hvu
      rw [if_pos hv, loadOf_eq_zero_of_not_mem (hv ▸ hnd.1), add_zero]
    · have hfind' : vs.find? (fun x => decide (x.id = uid)) = some u := by
        have heq := List.find?_cons_of_neg (p := fun x => decide (x.id = uid)) vs
          (by simpa using hv)
        rw [heq] at hfind
        exact hfind
      rw [if_neg hv, ih hnd.2 hfind', zero_add]

/-- Under primary-key uniqueness a workload update rewrites the found user's
booked load pointwise. -/
lemma loadOf_mapLoad_find {us : List User} {uid : Nat} {u : User}
    (hnd : (us.map User.id).Nodup)
    (hfind : us.find? (fun x => decide (x.id = uid)) = some u) (f : ℚ → ℚ) :
    loadOf (mapLoad us uid f) uid = f u.currentWorkload := by
  induction us with
  | nil => simp at hfind
  | cons v vs ih =>
    simp only [List.map_cons, List.nodup_cons] at hnd
    rw [show mapLoad (v :: vs) uid f
        = (if v.id = uid then { v with currentWorkload := f v.currentWorkload } else v)
            :: mapLoad vs uid f from rfl,
      loadOf_cons]
    by_cases hv : v.id = uid
    · have hvu : v = u := by
        have heq := List.find?_cons_of_pos (p := fun x => decide (x.id = uid)) vs
          (by simpa using hv)
        rw [heq] at hfind
        exact Option.some.inj hfind
      subst hvu
      have htail : loadOf (mapLoad vs uid f) uid = 0 := by
        have hnm : uid ∉ (mapLoad vs uid f).map User.id := by
          rw [mapLoad_map_id]; exact hv ▸ hnd.1
        exact loadOf_eq_zero_of_not_mem hnm
      rw [if_pos hv, htail, add_zero,
        if_pos (show ({ v with currentWorkload := f v.currentWorkload } : User).id = uid from hv)]
    · have hfind' : vs.find? (fun x => decide (x.id = uid)) = some u := by
        have heq := List.find?_cons_of_neg (p := fun x => decide (x.id = uid)) vs
          (by simpa using hv)
        rw [heq] at hfind
        exact hfind
      rw [if_neg hv, if_neg hv, zero_add, ih hnd.2 hfind']

/-! ### Stability and effect of one apply-loop iteration -/

/-- Row counts only depend on the id column. -/
lemma countId_congr_ids {us vs : List User} (h : us.map User.id = vs.map User.id)
    (uid : Nat) : countId us uid = countId vs uid := by
  unfold countId
  rw [show (fun (u : User) => if u.id = uid then (1 : ℚ) else 0)
      = ((fun i => if i = uid then (1 : ℚ) else 0) ∘ User.id) from rfl,
    ← List.map_map, ← List.map_map, h]

/-- Equal (id, username) projections give equal id columns. -/
lemma map_id_of_proj {us vs : List User}
    (h : us.map (fun u => (u.id, u.username)) = vs.map (fun u => (u.id, u.username))) :
    us.map User.id = vs.map User.id := by
  have h2 := congrArg (List.map Prod.fst) h
  rw [List.map_map, List.map_map] at h2
  exact h2

/-- A `+= δ` update does not change row counts. -/
lemma countId_addLoad (us : List User) (v : Nat) (δ : ℚ) (uid : Nat) :
    countId (addLoad us v δ) uid = countId us uid :=
  countId_congr_ids (by rw [addLoad, mapLoad_map_id]) uid

/-- One apply-loop iteration keeps every user's id and username. -/
lemma applyMove_users_proj (s : DBState) (m : Move) :
    (applyMove s m).users.map (fun u => (u.id, u.username))
      = s.users.map (fun u => (u.id, u.username)) := by
  unfold applyMove
  rcases h1 : findTask s m.taskId with _ | t
  · rfl
  rcases h2 : findUserByUsername s m.fromUser with _ | ou
  · rfl
  rcases h3 : findUser s m.toUserId with _ | nu
  · rfl
  dsimp only
  cases hh : t.estimatedHours with
  | none => rfl
  | some h =>
    dsimp only
    by_cases hz : h = 0
    · rw [if_pos hz]
    · rw [if_neg hz]
      show (addLoad (addLoad s.users ou.id (-h)) nu.id h).map _ = _
      rw [addLoad, addLoad, mapLoad_proj, mapLoad_proj]

/-- One apply-loop iteration keeps every task's id and estimated hours. -/
lemma applyMove_tasks_proj (s : DBState) (m : Move) :
    (applyMove s m).tasks.map (fun t => (t.id, t.estimatedHours))
      = s.tasks.map (fun t => (t.id, t.estimatedHours)) := by
  unfold applyMove
  rcases h1 : findTask s m.taskId with _ | t
  · rfl
  rcases h2 : findUserByUsername s m.fromUser with _ | ou
  · rfl
  rcases h3 : findUser s m.toUserId with _ | nu
  · rfl
  dsimp only
  cases hh : t.estimatedHours with
  | none => exact setTaskAssignee_proj _ _ _
  | some h =>
    dsimp only
    by_cases hz : h = 0
    · rw [if_pos hz]
      exact setTaskAssignee_proj _ _ _
    · rw [if_neg hz]
      exact setTaskAssignee_proj _ _ _

/-- `moveData` through the projections of the three lookups. -/
lemma moveData_eq_moveDataP (s : DBState) (m : Move) :
    moveData s m
      = moveDataP ((findTask s m.taskId).map (fun t => (t.id, t.estimatedHours)))
          ((findUserByUsername s m.fromUser).map (fun u => (u.id, u.username)))
          ((findUser s m.toUserId).map (fun u => (u.id, u.username))) := by
  unfold moveData moveDataP
  rcases findTask s m.taskId with _ | t <;>
    rcases findUserByUsername s m.fromUser with _ | ou <;>
    rcases findUser s m.toUserId with _ | nu <;> rfl

/-- States with equal user and task projections produce the same per-move
data. -/
lemma moveData_congr {s s' : DBState} (m : Move)
    (hu : s'.users.map (fun u => (u.id, u.username)) = s.users.map (fun u => (u.id, u.username)))
    (ht : s'.tasks.map (fun t => (t.id, t.estimatedHours))
      = s.tasks.map (fun t => (t.id, t.estimatedHours))) :
    moveData s' m = moveData s m := by
  have h1 : ((s'.tasks.find? (fun t => decide (t.id = m.taskId))).map
        (fun t => (t.id, t.estimatedHours)))
      = ((s.tasks.find? (fun t => decide (t.id = m.taskId))).map
        (fun t => (t.id, t.estimatedHours))) :=
    find?_proj_congr (fun t : Task => (t.id, t.estimatedHours))
      (fun pr => decide (pr.1 = m.taskId)) ht
  have h2 : ((s'.users.find? (fun u => decide (u.username = m.fromUser))).map
        (fun u => (u.id, u.username)))
      = ((s.users.find? (fun u => decide (u.username = m.fromUser))).map
        (fun u => (u.id, u.username))) :=
    find?_proj_congr (fun u : User => (u.id, u.username))
      (fun pr => decide (pr.2 = m.fromUser)) hu
  have h3 : ((s'.users.find? (fun u => decide (u.id = m.toUserId))).map
        (fun u => (u.id, u.username)))
      = ((s.users.find? (fun u => decide (u.id = m.toUserId))).map
        (fun u => (u.id, u.username))) :=
    find?_proj_congr (fun u : User => (u.id, u.username))
      (fun pr => decide (pr.1 = m.toUserId)) hu
  rw [moveData_eq_moveDataP, moveData_eq_moveDataP]
  unfold findTask findUser findUserByUsername
  rw [h1, h2, h3]

/-- Per-move data is stable under the apply loop. -/
lemma moveData_applyMove (s : DBState) (m' m : Move) :
    moveData (applyMove s m') m = moveData s m :=
  moveData_congr m (applyMove_users_proj s m') (applyMove_tasks_proj s m')

/-- Effect of one apply-loop iteration on any user's booked load. -/
lemma loadOf_applyMove (s : DBState) (m : Move) (uid : Nat)
    (hnd : (s.users.map User.id).Nodup) :
    loadOf (applyMove s m).users uid = loadOf s.users uid + moveDelta s m uid := by
  unfold applyMove moveDelta moveData
  rcases h1 : findTask s m.taskId with _ | t
  · simp
  rcases h2 : findUserByUsername s m.fromUser with _ | ou
  · simp
  rcases h3 : findUser s m.toUserId with _ | nu
  · simp
  have hou : countId s.users ou.id = 1 :=
    countId_eq_one hnd (List.mem_of_find?_eq_some h2)
  have hnu : countId s.users nu.id = 1 :=
    countId_eq_one hnd (List.mem_of_find?_eq_some h3)
  dsimp only
  cases hh : t.estimatedHours with
  | none => simp
  | some h =>
    dsimp only
    by_cases hz : h = 0
    · subst hz
      simp
    · rw [if_neg hz]
      show loadOf (addLoad (addLoad s.users ou.id (-h)) nu.id h) uid = _
      have hst : countId (addLoad s.users ou.id (-h)) nu.id = countId s.users nu.id :=
        countId_congr_ids (by rw [addLoad, mapLoad_map_id]) nu.id
      rw [loadOf_addLoad, loadOf_addLoad, hst, hou, hnu]
      simp only [Option.getD_some]
      split_ifs <;> ring

/-- One apply-loop iteration conserves the system-wide load. -/
lemma sumLoads_applyMove (s : DBState) (m : Move)
    (hnd : (s.users.map User.id).Nodup) :
    sumLoads (applyMove s m).users = sumLoads s.users := by
  unfold applyMove
  rcases h1 : findTask s m.taskId with _ | t
  · rfl
  rcases h2 : findUserByUsername s m.fromUser with _ | ou
  · rfl
  rcases h3 : findUser s m.toUserId with _ | nu
  · rfl
  have hou : countId s.users ou.id = 1 :=
    countId_eq_one hnd (List.mem_of_find?_eq_some h2)
  have hnu : countId s.users nu.id = 1 :=
    countId_eq_one hnd (List.mem_of_find?_eq_some h3)
  dsimp only
  cases hh : t.estimatedHours with
  | none => rfl
  | some h =>
    dsimp only
    by_cases hz : h = 0
    · rw [if_pos hz]
    · rw [if_neg hz]
      show sumLoads (addLoad (addLoad s.users ou.id (-h)) nu.id h) = _
      have hst : countId (addLoad s.users ou.id (-h)) nu.id = countId s.users nu.id :=
        countId_congr_ids (by rw [addLoad, mapLoad_map_id]) nu.id
      rw [sumLoads_addLoad, sumLoads_addLoad, hst, hou, hnu]
      ring

/-- A reassignment of another task id leaves a task's `find?` untouched. -/
lemma find?_setTaskAssignee_ne (ts : List Task) (tid' uid tid : Nat) (h : tid ≠ tid') :
    (setTaskAssignee ts tid' uid).find? (fun t => decide (t.id = tid))
      = ts.find? (fun t => decide (t.id = tid)) := by
  rw [setTaskAssignee,
    find?_map_eq _ _ (fun x => by by_cases hx : x.id = tid' <;> simp [hx])]
  cases e : ts.find? (fun t => decide (t.id = tid)) with
  | none => rfl
  | some x =>
    have hx : x.id = tid := by simpa using List.find?_some e
    rw [Option.map_some']
    congr 1
    rw [if_neg (by rw [hx]; exact h)]

/-- A reassignment rewrites its own task's `find?`. -/
lemma find?_setTaskAssignee_self {ts : List Task} {tid : Nat} {t : Task} (uid : Nat)
    (hfind : ts.find? (fun x => decide (x.id = tid)) = some t) :
    (setTaskAssignee ts tid uid).find? (fun x => decide (x.id = tid))
      = some { t with assignedTo := some uid } := by
  rw [setTaskAssignee,
    find?_map_eq _ _ (fun x => by by_cases hx : x.id = tid <;> simp [hx]),
    hfind, Option.map_some']
  congr 1
  rw [if_pos (by simpa using List.find?_some hfind)]

/-- One apply-loop iteration does not touch the assignee of any other task. -/
lemma assigneeOf_applyMove_ne (s : DBState) (m : Move) (tid : Nat)
    (h : tid ≠ m.taskId) :
    assigneeOf (applyMove s m) tid = assigneeOf s tid := by
  unfold assigneeOf findTask applyMove
  rcases h1 : findTask s m.taskId with _ | t
  · rfl
  rcases h2 : findUserByUsername s m.fromUser with _ | ou
  · rfl
  rcases h3 : findUser s m.toUserId with _ | nu
  · rfl
  dsimp only
  cases hh : t.estimatedHours with
  | none => show ((setTaskAssignee s.tasks m.taskId nu.id).find? _).map _ = _
            rw [find?_setTaskAssignee_ne _ _ _ _ h]
  | some hq =>
    dsimp only
    by_cases hz : hq = 0
    · rw [if_pos hz]
      show ((setTaskAssignee s.tasks m.taskId nu.id).find? _).map _ = _
      rw [find?_setTaskAssignee_ne _ _ _ _ h]
    · rw [if_neg hz]
      show ((setTaskAssignee s.tasks m.taskId nu.id).find? _).map _ = _
      rw [find?_setTaskAssignee_ne _ _ _ _ h]

/-- A resolved apply-loop iteration sets its task's assignee to the
destination id recorded in its move data. -/
lemma assigneeOf_applyMove_self {s : DBState} {m : Move} {src dst : Nat} {h : ℚ}
    (hmd : moveData s m = some (src, dst, h)) :
    assigneeOf (applyMove s m) m.taskId = some (some dst) := by
  unfold moveData at hmd
  unfold applyMove
  rcases h1 : findTask s m.taskId with _ | t
  · rw [h1] at hmd; simp at hmd
  rcases h2 : findUserByUsername s m.fromUser with _ | ou
  · rw [h1, h2] at hmd; simp at hmd
  rcases h3 : findUser s m.toUserId with _ | nu
  · rw [h1, h2, h3] at hmd; simp at hmd
  rw [h1, h2, h3] at hmd
  simp only [Option.some.injEq, Prod.mk.injEq] at hmd
  obtain ⟨-, hdst, -⟩ := hmd
  have hself : (setTaskAssignee s.tasks m.taskId nu.id).find?
      (fun x => decide (x.id = m.taskId)) = some { t with assignedTo := some nu.id } :=
    find?_setTaskAssignee_self nu.id h1
  dsimp only
  cases hh : t.estimatedHours with
  | none =>
    unfold assigneeOf findTask
    dsimp only
    rw [hself, Option.map_some', hdst]
  | some hq =>
    dsimp only
    by_cases hz : hq = 0
    · rw [if_pos hz]
      unfold assigneeOf findTask
      dsimp only
      rw [hself, Option.map_some', hdst]
    · rw [if_neg hz]
      unfold assigneeOf findTask
      dsimp only
      rw [hself, Option.map_some', hdst]

/-! ### The whole apply loop -/

/-- The apply loop unfolds move by move. -/
lemma applyMoves_cons (s : DBState) (m : Move) (ms : List Move) :
    applyMoves s (m :: ms) = applyMoves (applyMove s m) ms := rfl

/-- The apply loop keeps every user's id and username. -/
lemma applyMoves_users_proj (moves : List Move) :
    ∀ s : DBState, (applyMoves s moves).users.map (fun u => (u.id, u.username))
      = s.users.map (fun u => (u.id, u.username)) := by
  induction moves with
  | nil => intro s; rfl
  | cons m ms ih =>
    intro s
    rw [applyMoves_cons, ih, applyMove_users_proj]

/-- The apply loop keeps every task's id and estimated hours. -/
lemma applyMoves_tasks_proj (moves : List Move) :
    ∀ s : DBState, (applyMoves s moves).tasks.map (fun t => (t.id, t.estimatedHours))
      = s.tasks.map (fun t => (t.id, t.estimatedHours)) := by
  induction moves with
  | nil => intro s; rfl
  | cons m ms ih =>
    intro s
    rw [applyMoves_cons, ih, applyMove_tasks_proj]

/-- Per-user net effect of a move list is stable under one applied move. -/
lemma netDelta_applyMove (s : DBState) (m' : Move) (moves : List Move) (uid : Nat) :
    netDelta (applyMove s m') moves uid = netDelta s moves uid := by
  unfold netDelta
  congr 1
  apply List.map_congr_left
  intro m _
  unfold moveDelta
  rw [moveData_applyMove]

/-- Per-user booked load after the whole apply loop. -/
lemma loadOf_applyMoves (moves : List Move) :
    ∀ s : DBState, (s.users.map User.id).Nodup → ∀ uid,
      loadOf (applyMoves s moves).users uid = loadOf s.users uid + netDelta s moves uid := by
  induction moves with
  | nil =>
    intro s _ uid
    simp [applyMoves, netDelta]
  | cons m ms ih =>
    intro s hnd uid
    have hnd' : ((applyMove s m).users.map User.id).Nodup := by
      rw [map_id_of_proj (applyMove_users_proj s m)]
      exact hnd
    rw [applyMoves_cons, ih (applyMove s m) hnd' uid, netDelta_applyMove,
      loadOf_applyMove s m uid hnd]
    unfold netDelta
    rw [List.map_cons, List.sum_cons]
    ring

/-- The whole apply loop conserves the system-wide load. -/
lemma sumLoads_applyMoves (moves : List Move) :
    ∀ s : DBState, (s.users.map User.id).Nodup →
      sumLoads (applyMoves s moves).users = sumLoads s.users := by
  induction moves with
  | nil => intro s _; rfl
  | cons m ms ih =>
    intro s hnd
    have hnd' : ((applyMove s m).users.map User.id).Nodup := by
      rw [map_id_of_proj (applyMove_users_proj s m)]
      exact hnd
    rw [applyMoves_cons, ih (applyMove s m) hnd', sumLoads_applyMove s m hnd]

/-- The apply loop never touches a task outside the move list. -/
lemma assigneeOf_applyMoves_not_mem (moves : List Move) :
    ∀ s : DBState, ∀ tid, tid ∉ moves.map Move.taskId →
      assigneeOf (applyMoves s moves) tid = assigneeOf s tid := by
  induction moves with
  | nil => intro s tid _; rfl
  | cons m ms ih =>
    intro s tid htid
    simp only [List.map_cons, List.mem_cons, not_or] at htid
    rw [applyMoves_cons, ih (applyMove s m) tid htid.2,
      assigneeOf_applyMove_ne s m tid htid.1]

/-- After the apply loop, every (resolved, pairwise-distinct) move's task
carries its destination assignee. -/
lemma assigneeOf_applyMoves_mem (moves : List Move) :
    ∀ s : DBState, (moves.map Move.taskId).Nodup →
      ∀ m ∈ moves, ∀ src dst h, moveData s m = some (src, dst, h) →
        assigneeOf (applyMoves s moves) m.taskId = some (some dst) := by
  induction moves with
  | nil => intro s _ m hm; simp at hm
  | cons m' ms ih =>
    intro s hnodup m hm src dst h hmd
    simp only [List.map_cons, List.nodup_cons] at hnodup
    rcases List.mem_cons.mp hm with rfl | hm'
    · rw [applyMoves_cons,
        assigneeOf_applyMoves_not_mem ms (applyMove s m) m.taskId hnodup.1,
        assigneeOf_applyMove_self hmd]
    · rw [applyMoves_cons]
      exact ih (applyMove s m') hnodup.2 m hm' src dst h
        (by rw [moveData_applyMove]; exact hmd)

/-- What a successful `moveData` says about the three lookups. -/
lemma moveData_elim {s : DBState} {m : Move} {src dst : Nat} {h : ℚ}
    (hmd : moveData s m = some (src, dst, h)) :
    ∃ t ou nu, findTask s m.taskId = some t
      ∧ findUserByUsername s m.fromUser = some ou
      ∧ findUser s m.toUserId = some nu
      ∧ src = ou.id ∧ dst = nu.id ∧ h = t.estimatedHours.getD 0 := by
  unfold moveData at hmd
  rcases h1 : findTask s m.taskId with _ | t
  · rw [h1] at hmd; simp at hmd
  rcases h2 : findUserByUsername s m.fromUser with _ | ou
  · rw [h1, h2] at hmd; simp at hmd
  rcases h3 : findUser s m.toUserId with _ | nu
  · rw [h1, h2, h3] at hmd; simp at hmd
  rw [h1, h2, h3] at hmd
  simp only [Option.some.injEq, Prod.mk.injEq] at hmd
  exact ⟨t, ou, nu, rfl, rfl, rfl, hmd.1.symm, hmd.2.1.symm, hmd.2.2.symm⟩

/-- What a passing `moveOk` check provides. -/
lemma moveOk_spec {s : DBState} {m : Move} (hok : moveOk s m = true) :
    ∃ src dst h, moveData s m = some (src, dst, h)
      ∧ assigneeOf s m.taskId ≠ some (some dst) := by
  unfold moveOk at hok
  rcases h1 : findTask s m.taskId with _ | t
  · rw [h1] at hok; simp at hok
  rcases h2 : findUserByUsername s m.fromUser with _ | ou
  · rw [h1, h2] at hok; simp at hok
  rcases h3 : findUser s m.toUserId with _ | nu
  · rw [h1, h2, h3] at hok; simp at hok
  rw [h1, h2, h3] at hok
  simp only [decide_eq_true_eq] at hok
  refine ⟨ou.id, nu.id, t.estimatedHours.getD 0, ?_, ?_⟩
  · unfold moveData
    rw [h1, h2, h3]
  · unfold assigneeOf
    rw [h1, Option.map_some']
    simp only [ne_eq, Option.some.injEq]
    exact hok

/-- A move's net effect splits into its inflow and outflow summands. -/
lemma moveDelta_split (s : DBState) (m : Move) (uid : Nat) :
    moveDelta s m uid
      = (match moveData s m with
          | some (_, dst, h) => if uid = dst then h else 0
          | none => 0)
        - (match moveData s m with
            | some (src, _, h) => if uid = src then h else 0
            | none => 0) := by
  unfold moveDelta
  rcases moveData s m with _ | ⟨src, dst, h⟩ <;> simp

/-- Net per-user effect = inflow − outflow. -/
lemma netDelta_eq_inflow_sub_outflow (s : DBState) (moves : List Move) (uid : Nat) :
    netDelta s moves uid = inflow s moves uid - outflow s moves uid := by
  unfold netDelta inflow outflow
  induction moves with
  | nil => simp
  | cons m ms ih =>
    simp only [List.map_cons, List.sum_cons]
    rw [ih, moveDelta_split]
    ring

/-- **C6 (amended).**  An apply run over a proposed-move list whose entries
all resolve (task by id, source by username, destination by id — satisfied by
the rebalancer's own moves exactly when the recommended destination exists in
the database) and name pairwise-distinct tasks changes the assignee of
exactly the listed tasks — each to its move's destination, which differs from
the previous assignee — leaves every other task's assignee alone, shifts each
user's booked load by the net of the listed estimated hours flowing in and
out, and conserves the system-wide load.  (The unamended claim fails: a move
whose destination id resolves to no user is skipped, see the counterexample.) -/
theorem C6_rebalance_apply_effects (s : DBState) (moves : List Move)
    (hnd : (s.users.map User.id).Nodup)
    (htids : (moves.map Move.taskId).Nodup)
    (hok : ∀ m ∈ moves, moveOk s m = true) :
    (∀ m ∈ moves, ∃ src dst h, moveData s m = some (src, dst, h)
        ∧ assigneeOf (applyMoves s moves) m.taskId = some (some dst)
        ∧ assigneeOf s m.taskId ≠ some (some dst))
    ∧ (∀ tid, tid ∉ moves.map Move.taskId →
        assigneeOf (applyMoves s moves) tid = assigneeOf s tid)
    ∧ (∀ uid, loadOf (applyMoves s moves).users uid
        = loadOf s.users uid + inflow s moves uid - outflow s moves uid)
    ∧ sumLoads (applyMoves s moves).users = sumLoads s.users := by
  refine ⟨?_, fun tid htid => assigneeOf_applyMoves_not_mem moves s tid htid, ?_,
    sumLoads_applyMoves moves s hnd⟩
  · intro m hm
    obtain ⟨src, dst, h, hmd, hne⟩ := moveOk_spec (hok m hm)
    exact ⟨src, dst, h, hmd,
      assigneeOf_applyMoves_mem moves s htids m hm src dst h hmd, hne⟩
  · intro uid
    rw [loadOf_applyMoves moves s hnd uid, netDelta_eq_inflow_sub_outflow]
    ring

/-- **C6 witness.**  The amended theorem on the two-person demo team with one
4-hour move from Alice to Bob, together with the concrete numbers: the task's
assignee becomes Bob, Alice's load 38 → 34, Bob's 10 → 14, total conserved. -/
theorem C6_rebalance_apply_effects_witness :
    ((∀ m ∈ [applyDemoMove], ∃ src dst h,
        moveData applyDemoState m = some (src, dst, h)
        ∧ assigneeOf (applyMoves applyDemoState [applyDemoMove]) m.taskId = some (some dst)
        ∧ assigneeOf applyDemoState m.taskId ≠ some (some dst))
      ∧ (∀ tid, tid ∉ [applyDemoMove].map Move.taskId →
          assigneeOf (applyMoves applyDemoState [applyDemoMove]) tid
            = assigneeOf applyDemoState tid)
      ∧ (∀ uid, loadOf (applyMoves applyDemoState [applyDemoMove]).users uid
          = loadOf applyDemoState.users uid + inflow applyDemoState [applyDemoMove] uid
            - outflow applyDemoState [applyDemoMove] uid)
      ∧ sumLoads (applyMoves applyDemoState [applyDemoMove]).users
          = sumLoads applyDemoState.users)
    ∧ loadOf (applyMoves applyDemoState [applyDemoMove]).users 1 = 34
    ∧ loadOf (applyMoves applyDemoState [applyDemoMove]).users 2 = 14
    ∧ assigneeOf (applyMoves applyDemoState [applyDemoMove]) 5 = some (some 2) :=
  ⟨C6_rebalance_apply_effects applyDemoState [applyDemoMove]
      (by decide) (by decide) (by decide),
   by norm_num [loadOf, applyMoves, applyMove, applyDemoState, applyDemoMove, mkTask,
     findTask, findUser, findUserByUsername, setTaskAssignee, addLoad, mapLoad,
     List.find?, List.foldl],
   by norm_num [loadOf, applyMoves, applyMove, applyDemoState, applyDemoMove, mkTask,
     findTask, findUser, findUserByUsername, setTaskAssignee, addLoad, mapLoad,
     List.find?, List.foldl],
   by norm_num [assigneeOf, applyMoves, applyMove, applyDemoState, applyDemoMove, mkTask,
     findTask, findUser, findUserByUsername, setTaskAssignee, addLoad, mapLoad,
     List.find?, List.foldl]⟩

/-- **C6 counterexample.**  A full rebalance apply run whose oracle
recommends the nonexistent user 999: the proposed-move list has exactly one
entry, yet the apply pass changes nothing at all (the destination lookup
fails and the move is silently skipped) — so "exactly N assignees change" is
false for N = 1. -/
theorem C6_hallucinated_destination_counterexample :
    ((rebalanceTeamWorkload hallucinatingOracle hallucinationDemoState 10 false).2.map
        (fun r => r.recommendations.length)) = some 1
    ∧ (rebalanceTeamWorkload hallucinatingOracle hallucinationDemoState 10 false).1
        = hallucinationDemoState := by
  constructor <;>
    norm_num [rebalanceTeamWorkload, hallucinationDemoState, hallucinatingOracle,
      recommendAssignee, eligibleCandidates, consideredTasks, sortByLabelDesc,
      insertByLabelDesc, labelRank, mkTask, prepCandidate, round1, workloadPercentage,
      availableHours, isOverloaded, findTask, findUser, findUserByUsername, List.find?,
      applyMoves, applyMove, List.filter, List.isEmpty, List.flatMap, List.filterMap,
      List.foldl, List.take, fallbackRecommendation, minWorkloadFirst, mkFallbackRec,
      loadOf, addLoad, mapLoad, setTaskAssignee]

/-! ### Assignment, deletion and reassignment effects on loads -/

/-- The task table after a successful auto-assign: only the assigned task's
row is rewritten (assignee, status, AI provenance). -/
lemma autoAssign_tasks {s : DBState} {tid : Nat} {t : Task} (uid : Nat) (sc : ℚ)
    (rs : String) (h1 : findTask s tid = some t) :
    (autoAssignTask s tid uid sc rs).tasks
      = s.tasks.map (fun x => if x.id = tid then
          { x with assignedTo := some uid, status := .pending
                   aiMatchScore := some sc, aiRecommendationReason := some rs }
        else x) := by
  unfold autoAssignTask
  rw [h1]
  dsimp only
  rcases findUser s uid with _ | u0 <;> rcases t.estimatedHours with _ | h
  all_goals dsimp only
  all_goals split <;> rfl

/-- The user table after a successful auto-assign of a task with recorded
estimated hours. -/
lemma autoAssign_users {s : DBState} {tid uid : Nat} {t : Task} {h : ℚ} {u0 : User}
    (sc : ℚ) (rs : String) (h1 : findTask s tid = some t)
    (hh : t.estimatedHours = some h) (h2 : findUser s uid = some u0) :
    (autoAssignTask s tid uid sc rs).users
      = if h = 0 then s.users else addLoad s.users uid h := by
  unfold autoAssignTask
  rw [h1]
  dsimp only
  rw [h2, hh]
  dsimp only
  by_cases hz : h = 0
  · rw [if_pos hz, if_pos hz]
  · rw [if_neg hz, if_neg hz]

/-- The user table after deleting a task with truthy assignee and hours whose
assignee row exists: the clamped subtraction. -/
lemma deleteTask_users {s : DBState} {tid uid : Nat} {t : Task} {h : ℚ} {u0 : User}
    (h1 : findTask s tid = some t) (ha : t.assignedTo = some uid)
    (hh : t.estimatedHours = some h) (hu : uid ≠ 0) (hz : h ≠ 0)
    (h2 : findUser s uid = some u0) :
    (deleteTask s tid).users = mapLoad s.users uid (fun w => max 0 (w - h)) := by
  unfold deleteTask
  rw [h1]
  dsimp only
  rw [ha, hh]
  dsimp only
  rw [if_neg (by simp [hu, hz]), h2]

/-- **C7 counterexample.**  Deleting a 5-hour task whose assignee books only
2 hours leaves the load at 0 — a decrease of 2, not "exactly H = 5"
(`max(0, current_workload - estimated_hours)` clamps), refuting the claim
that unassigning always decreases the load by exactly the estimated hours. -/
theorem C7_delete_clamp_counterexample :
    loadOf clampDemoState.users 1 = 2
    ∧ loadOf (deleteTask clampDemoState 9).users 1 = 0
    ∧ (0 : ℚ) ≠ 2 - 5 := by
  refine ⟨?_, ?_, by norm_num⟩ <;>
    norm_num [loadOf, deleteTask, clampDemoState, mkTask, findTask, findUser,
      List.find?, mapLoad]

/-- **C7 (amended).**  Load bookkeeping of the three assignment paths, under
primary-key uniqueness of user ids:
1. auto-assigning a task with estimated hours `H` to an existing user adds
   exactly `H` to that user's load and nothing to anyone else's;
2. deleting an assigned task with truthy hours `H` sets the assignee's load
   to `max(0, load − H)` — exactly `−H` when the load covers `H`, clamped to
   0 otherwise — and leaves other loads alone;
3. reassigning through the task-update route changes no load at all;
4. the assign-then-delete round trip restores every load exactly whenever
   the assignee's starting load is non-negative. -/
theorem C7_assignment_load_deltas (s : DBState) (tid uid : Nat) (sc : ℚ) (rs : String)
    (t : Task) (h : ℚ) (u0 : User)
    (hnd : (s.users.map User.id).Nodup)
    (h1 : findTask s tid = some t)
    (hh : t.estimatedHours = some h)
    (h2 : findUser s uid = some u0) :
    (loadOf (autoAssignTask s tid uid sc rs).users uid = loadOf s.users uid + h
      ∧ ∀ v, v ≠ uid → loadOf (autoAssignTask s tid uid sc rs).users v = loadOf s.users v)
    ∧ (t.assignedTo = some uid → uid ≠ 0 → h ≠ 0 →
        loadOf (deleteTask s tid).users uid = max 0 (loadOf s.users uid - h)
        ∧ (h ≤ loadOf s.users uid →
            loadOf (deleteTask s tid).users uid = loadOf s.users uid - h)
        ∧ ∀ v, v ≠ uid → loadOf (deleteTask s tid).users v = loadOf s.users v)
    ∧ (∀ nid, (updateTaskAssignee s tid nid).users = s.users)
    ∧ (uid ≠ 0 → 0 ≤ loadOf s.users uid →
        ∀ v, loadOf (deleteTask (autoAssignTask s tid uid sc rs) tid).users v
          = loadOf s.users v) := by
  have hu0id : u0.id = uid := by
    have h2' : s.users.find? (fun x => decide (x.id = uid)) = some u0 := h2
    simpa using List.find?_some h2'
  have hcnt : countId s.users uid = 1 := by
    rw [← hu0id]
    exact countId_eq_one hnd (List.mem_of_find?_eq_some h2)
  refine ⟨⟨?_, ?_⟩, ?_, ?_, ?_⟩
  · rw [autoAssign_users sc rs h1 hh h2]
    by_cases hz : h = 0
    · rw [if_pos hz, hz, add_zero]
    · rw [if_neg hz, loadOf_addLoad, if_pos rfl, hcnt, mul_one]
  · intro v hv
    rw [autoAssign_users sc rs h1 hh h2]
    by_cases hz : h = 0
    · rw [if_pos hz]
    · rw [if_neg hz, loadOf_addLoad, if_neg hv, add_zero]
  · intro ha hu hz
    have husers := deleteTask_users h1 ha hh hu hz h2
    have hload : loadOf s.users uid = u0.currentWorkload := loadOf_eq_of_find hnd h2
    refine ⟨?_, ?_, ?_⟩
    · rw [husers, loadOf_mapLoad_find hnd h2, hload]
    · intro hle
      rw [husers, loadOf_mapLoad_find hnd h2, ← hload,
        max_eq_right (by linarith : (0 : ℚ) ≤ loadOf s.users uid - h)]
    · intro v hv
      rw [husers, loadOf_mapLoad_ne _ _ _ _ hv]
  · intro nid
    unfold updateTaskAssignee
    rcases findTask s tid with _ | t' <;> rfl
  · intro hu hpos v
    set s2 := autoAssignTask s tid uid sc rs with hs2
    have htasks2 := autoAssign_tasks uid sc rs h1
    have husers2 : s2.users = if h = 0 then s.users else addLoad s.users uid h :=
      autoAssign_users sc rs h1 hh h2
    have hid2 : s2.users.map User.id = s.users.map User.id := by
      rw [husers2]
      by_cases hz : h = 0
      · rw [if_pos hz]
      · rw [if_neg hz, addLoad, mapLoad_map_id]
    have hnd2 : (s2.users.map User.id).Nodup := by rw [hid2]; exact hnd
    have hfind2 : findTask s2 tid
        = some { t with assignedTo := some uid, status := .pending
                        aiMatchScore := some sc, aiRecommendationReason := some rs } := by
      unfold findTask
      rw [htasks2, find?_map_eq _ _ (fun x => by by_cases hx : x.id = tid <;> simp [hx])]
      unfold findTask at h1
      rw [h1, Option.map_some']
      congr 1
      rw [if_pos (by simpa using List.find?_some h1)]
    by_cases hz : h = 0
    · unfold deleteTask
      rw [hfind2]
      dsimp only
      rw [hh]
      dsimp only
      rw [if_pos (Or.inr hz)]
      show loadOf s2.users v = loadOf s.users v
      rw [husers2, if_pos hz]
    · have hfindu2 : findUser s2 uid = some { u0 with currentWorkload := u0.currentWorkload + h } := by
        unfold findUser
        rw [husers2, if_neg hz, addLoad, mapLoad,
          find?_map_eq _ _ (fun x => by by_cases hx : x.id = uid <;> simp [hx])]
        unfold findUser at h2
        rw [h2, Option.map_some']
        congr 1
        rw [if_pos hu0id]
      have husers3 := deleteTask_users hfind2 rfl hh hu hz hfindu2
      rw [husers3]
      by_cases hv : v = uid
      · subst hv
        rw [loadOf_mapLoad_find hnd2 hfindu2, loadOf_eq_of_find hnd h2]
        have : u0.currentWorkload + h - h = u0.currentWorkload := by ring
        rw [this, max_eq_right]
        rw [← loadOf_eq_of_find hnd h2]
        exact hpos
      · rw [loadOf_mapLoad_ne _ _ _ _ hv, husers2, if_neg hz, loadOf_addLoad,
          if_neg hv, add_zero]

/-- **C7 witness.**  The amended theorem at the clamp demo state (load 2,
hours 5): deletion yields `max 0 (2 − 5) = 0`, the update route changes no
user row, and assigning the 5-hour task to the same user then deleting it
restores the load 2. -/
theorem C7_assignment_load_deltas_witness :
    loadOf (autoAssignTask clampDemoState 9 1 50 "auto").users 1
        = loadOf clampDemoState.users 1 + 5
    ∧ loadOf (deleteTask clampDemoState 9).users 1
        = max 0 (loadOf clampDemoState.users 1 - 5)
    ∧ (updateTaskAssignee clampDemoState 9 2).users = clampDemoState.users
    ∧ loadOf (deleteTask (autoAssignTask clampDemoState 9 1 50 "auto") 9).users 1
        = loadOf clampDemoState.users 1 := by
  have hmain := C7_assignment_load_deltas clampDemoState 9 1 50 "auto"
    (mkTask 9 "limpar" .medium (some 1) (some 5)) 5
    ⟨1, "ana", "Ana", .colaborador, true, none, 40, 2⟩
    (by decide) (by decide) (by decide) (by decide)
  refine ⟨hmain.1.1, (hmain.2.1 (by decide) (by decide) (by norm_num)).1,
    hmain.2.2.1 2, hmain.2.2.2 (by decide) ?_ 1⟩
  norm_num [loadOf, clampDemoState]

/-! ### Non-negativity of loads -/

/-- The user table after an auto-assign: unchanged, or one `+= h` with `h`
the estimated hours of a task of the state. -/
lemma autoAssign_users_cases (s : DBState) (tid uid : Nat) (sc : ℚ) (rs : String) :
    (autoAssignTask s tid uid sc rs).users = s.users
    ∨ ∃ t h, findTask s tid = some t ∧ t.estimatedHours = some h
        ∧ (autoAssignTask s tid uid sc rs).users = addLoad s.users uid h := by
  unfold autoAssignTask
  rcases h1 : findTask s tid with _ | t
  · left; rfl
  dsimp only
  rcases h2 : findUser s uid with _ | u0
  · left; rfl
  rcases hh : t.estimatedHours with _ | h
  · left; rfl
  dsimp only
  by_cases hz : h = 0
  · left; rw [if_pos hz]
  · right
    exact ⟨t, h, rfl, hh, by rw [if_neg hz]⟩

/-- The user table after a deletion: unchanged, or one clamped subtraction. -/
lemma deleteTask_users_cases (s : DBState) (tid : Nat) :
    (deleteTask s tid).users = s.users
    ∨ ∃ uid h, (deleteTask s tid).users = mapLoad s.users uid (fun w => max 0 (w - h)) := by
  unfold deleteTask
  rcases h1 : findTask s tid with _ | t
  · left; rfl
  dsimp only
  rcases t.assignedTo with _ | uid
  · left; rfl
  rcases t.estimatedHours with _ | h
  · left; rfl
  dsimp only
  by_cases hc : uid = 0 ∨ h = 0
  · rw [if_pos hc]; left; rfl
  · rw [if_neg hc]
    rcases findUser s uid with _ | u0
    · left; rfl
    · right; exact ⟨uid, h, rfl⟩

/-- Hours recorded in a resolved move come from a task of the state. -/
lemma moveData_hours_nonneg {s : DBState} {m : Move} {src dst : Nat} {h : ℚ}
    (hhours : ∀ t ∈ s.tasks, 0 ≤ t.estimatedHours.getD 0)
    (hmd : moveData s m = some (src, dst, h)) : 0 ≤ h := by
  obtain ⟨t, ou, nu, h1, h2, h3, _, _, hht⟩ := moveData_elim hmd
  rw [hht]
  exact hhours t (List.mem_of_find?_eq_some
    (show s.tasks.find? (fun x => decide (x.id = m.taskId)) = some t from h1))

/-- A resolved move's source id belongs to the user table. -/
lemma moveData_src_mem {s : DBState} {m : Move} {src dst : Nat} {h : ℚ}
    (hmd : moveData s m = some (src, dst, h)) : src ∈ s.users.map User.id := by
  obtain ⟨t, ou, nu, h1, h2, h3, hsrc, _, _⟩ := moveData_elim hmd
  rw [hsrc]
  exact List.mem_map_of_mem User.id (List.mem_of_find?_eq_some
    (show s.users.find? (fun x => decide (x.username = m.fromUser)) = some ou from h2))

/-- With non-negative task hours, inflow is non-negative. -/
lemma inflow_nonneg (s : DBState) (moves : List Move) (uid : Nat)
    (hhours : ∀ t ∈ s.tasks, 0 ≤ t.estimatedHours.getD 0) :
    0 ≤ inflow s moves uid := by
  unfold inflow
  apply List.sum_nonneg
  intro x hx
  obtain ⟨m, hm, rfl⟩ := List.mem_map.mp hx
  rcases hmd : moveData s m with _ | ⟨src, dst, h⟩
  · simp
  · dsimp only
    by_cases hc : uid = dst
    · rw [if_pos hc]
      exact moveData_hours_nonneg hhours hmd
    · rw [if_neg hc]

/-- An id outside the user table has no outflow. -/
lemma outflow_zero_of_not_mem (s : DBState) (moves : List Move) (uid : Nat)
    (hnm : uid ∉ s.users.map User.id) : outflow s moves uid = 0 := by
  unfold outflow
  apply List.sum_eq_zero
  intro x hx
  obtain ⟨m, hm, rfl⟩ := List.mem_map.mp hx
  rcases hmd : moveData s m with _ | ⟨src, dst, h⟩
  · rfl
  · dsimp only
    rw [if_neg (fun (hc : uid = src) => hnm (by rw [hc]; exact moveData_src_mem hmd))]

/-- **C8 (amended).**  Non-negativity of loads across the three mutating
paths: assignment application (with the non-negative task hours the HTTP
layer enforces) and work-item deletion preserve it from any state; the
rebalance apply loop preserves it provided each user's booked load covers the
total estimated hours the move list takes away from them — without that
proviso the loop's unclamped subtraction can drive a load negative (see the
counterexample). -/
theorem C8_nonneg_preservation :
    (∀ (s : DBState) (tid uid : Nat) (sc : ℚ) (rs : String),
      (∀ u ∈ s.users, 0 ≤ u.currentWorkload) →
      (∀ t ∈ s.tasks, 0 ≤ t.estimatedHours.getD 0) →
      ∀ u ∈ (autoAssignTask s tid uid sc rs).users, 0 ≤ u.currentWorkload)
    ∧ (∀ (s : DBState) (tid : Nat),
      (∀ u ∈ s.users, 0 ≤ u.currentWorkload) →
      ∀ u ∈ (deleteTask s tid).users, 0 ≤ u.currentWorkload)
    ∧ (∀ (s : DBState) (moves : List Move),
      (s.users.map User.id).Nodup →
      (∀ u ∈ s.users, 0 ≤ u.currentWorkload) →
      (∀ t ∈ s.tasks, 0 ≤ t.estimatedHours.getD 0) →
      (∀ uid ∈ s.users.map User.id, outflow s moves uid ≤ loadOf s.users uid) →
      ∀ uid, 0 ≤ loadOf (applyMoves s moves).users uid) := by
  refine ⟨?_, ?_, ?_⟩
  · intro s tid uid sc rs hload hhours u' hu'
    rcases autoAssign_users_cases s tid uid sc rs with hcase | ⟨t, h, h1, hh, hcase⟩
    · rw [hcase] at hu'
      exact hload u' hu'
    · rw [hcase, addLoad, mapLoad] at hu'
      obtain ⟨u0, hu0, rfl⟩ := List.mem_map.mp hu'
      have hhn : 0 ≤ h := by
        have := hhours t (List.mem_of_find?_eq_some
          (show s.tasks.find? (fun x => decide (x.id = tid)) = some t from h1))
        rw [hh] at this
        simpa using this
      by_cases hc : u0.id = uid
      · rw [if_pos hc]
        exact add_nonneg (hload u0 hu0) hhn
      · rw [if_neg hc]
        exact hload u0 hu0
  · intro s tid hload u' hu'
    rcases deleteTask_users_cases s tid with hcase | ⟨uid, h, hcase⟩
    · rw [hcase] at hu'
      exact hload u' hu'
    · rw [hcase, mapLoad] at hu'
      obtain ⟨u0, hu0, rfl⟩ := List.mem_map.mp hu'
      by_cases hc : u0.id = uid
      · rw [if_pos hc]
        exact le_max_left 0 _
      · rw [if_neg hc]
        exact hload u0 hu0
  · intro s moves hnd hload hhours hcov uid
    rw [loadOf_applyMoves moves s hnd uid, netDelta_eq_inflow_sub_outflow]
    have hin := inflow_nonneg s moves uid hhours
    by_cases hmem : uid ∈ s.users.map User.id
    · have hout := hcov uid hmem
      linarith
    · rw [outflow_zero_of_not_mem s moves uid hmem, loadOf_eq_zero_of_not_mem hmem]
      linarith

/-- **C8 witness.**  The amended theorem applied to the concrete demo
states: assigning the 5-hour task, deleting it, and the 4-hour Alice→Bob
apply run all keep every load non-negative. -/
theorem C8_nonneg_preservation_witness :
    (∀ u ∈ (autoAssignTask clampDemoState 9 1 50 "auto").users, 0 ≤ u.currentWorkload)
    ∧ (∀ u ∈ (deleteTask clampDemoState 9).users, 0 ≤ u.currentWorkload)
    ∧ ∀ uid, 0 ≤ loadOf (applyMoves applyDemoState [applyDemoMove]).users uid := by
  have hloadC : ∀ u ∈ clampDemoState.users, 0 ≤ u.currentWorkload := by
    intro u hu
    simp only [clampDemoState, List.mem_singleton] at hu
    subst hu
    norm_num
  have hhoursC : ∀ t ∈ clampDemoState.tasks, 0 ≤ t.estimatedHours.getD 0 := by
    intro t ht
    simp only [clampDemoState, List.mem_singleton] at ht
    subst ht
    norm_num [mkTask]
  have hloadA : ∀ u ∈ applyDemoState.users, 0 ≤ u.currentWorkload := by
    intro u hu
    simp only [applyDemoState, List.mem_cons, List.mem_singleton] at hu
    rcases hu with rfl | rfl | h
    · norm_num
    · norm_num
    · simp at h
  have hhoursA : ∀ t ∈ applyDemoState.tasks, 0 ≤ t.estimatedHours.getD 0 := by
    intro t ht
    simp only [applyDemoState, List.mem_singleton] at ht
    subst ht
    norm_num [mkTask]
  have hcovA : ∀ uid ∈ applyDemoState.users.map User.id,
      outflow applyDemoState [applyDemoMove] uid ≤ loadOf applyDemoState.users uid := by
    intro uid hmem
    simp only [applyDemoState, List.map_cons, List.map_nil, List.mem_cons,
      List.mem_singleton] at hmem
    rcases hmem with rfl | rfl | h
    · norm_num [outflow, moveData, applyDemoState, applyDemoMove, mkTask, findTask,
        findUser, findUserByUsername, List.find?, loadOf]
    · norm_num [outflow, moveData, applyDemoState, applyDemoMove, mkTask, findTask,
        findUser, findUserByUsername, List.find?, loadOf]
    · simp at h
  exact ⟨C8_nonneg_preservation.1 clampDemoState 9 1 50 "auto" hloadC hhoursC,
    C8_nonneg_preservation.2.1 clampDemoState 9 hloadC,
    C8_nonneg_preservation.2.2 applyDemoState [applyDemoMove] (by decide)
      hloadA hhoursA hcovA⟩

/-- **C8 counterexample.**  A rebalance apply run from a state whose loads
are all non-negative (Ana 10, Beto 0) moves Ana's pending 15-hour item to
Beto through the fallback recommendation and leaves Ana's load at −5: the
apply loop subtracts estimated hours without clamping, so non-negativity is
not preserved. -/
theorem C8_negative_load_counterexample :
    (∀ u ∈ overbookedDemoState.users, 0 ≤ u.currentWorkload)
    ∧ loadOf (rebalanceTeamWorkload raisingOracle overbookedDemoState 10 false).1.users 1
        = -5 := by
  constructor
  · intro u hu
    simp only [overbookedDemoState, List.mem_cons, List.mem_singleton] at hu
    rcases hu with rfl | rfl | h
    · norm_num
    · norm_num
    · simp at h
  · norm_num [rebalanceTeamWorkload, overbookedDemoState, raisingOracle,
      recommendAssignee, eligibleCandidates, consideredTasks, sortByLabelDesc,
      insertByLabelDesc, labelRank, mkTask, prepCandidate, round1, workloadPercentage,
      availableHours, isOverloaded, findTask, findUser, findUserByUsername, List.find?,
      applyMoves, applyMove, List.filter, List.isEmpty, List.flatMap, List.filterMap,
      List.foldl, List.take, fallbackRecommendation, minWorkloadFirst, mkFallbackRec,
      loadOf, addLoad, mapLoad, setTaskAssignee]

/-! ### Team wellbeing summary -/

/-- Members without a check in the window contribute nothing to the
member/check pair list the summary loop works over. -/
lemma withChecks_filter (s : DBState) (since : ℤ) (members : List User) :
    (members.filter (fun m => (lastCheckSince s m.id since).isSome)).filterMap
        (fun m => (lastCheckSince s m.id since).map (fun c => (m, c)))
      = members.filterMap (fun m => (lastCheckSince s m.id since).map (fun c => (m, c))) := by
  induction members with
  | nil => rfl
  | cons m ms ih =>
    rw [List.filter_cons, List.filterMap_cons]
    cases hc : lastCheckSince s m.id since with
    | none =>
      simp only [hc, Option.isSome_none, Bool.false_eq_true, if_false, Option.map_none']
      exact ih
    | some c =>
      simp only [hc, Option.isSome_some, if_true, List.filterMap_cons, Option.map_some']
      rw [ih]

/-- The summary loop is blind to members without a recent check. -/
lemma summarize_filter (s : DBState) (since : ℤ) (members : List User) :
    summarize s since (members.filter (fun m => (lastCheckSince s m.id since).isSome))
      = summarize s since members := by
  unfold summarize
  rw [withChecks_filter]

/-- Stable descending insertion preserves membership. -/
lemma mem_insertAlertDesc (a b : Alert) (l : List Alert) :
    a ∈ insertAlertDesc b l ↔ a = b ∨ a ∈ l := by
  induction l with
  | nil => simp [insertAlertDesc]
  | cons x xs ih =>
    unfold insertAlertDesc
    by_cases hr : severityRank x < severityRank b
    · rw [if_pos hr]
      simp [List.mem_cons]
    · rw [if_neg hr]
      simp only [List.mem_cons, ih]
      tauto

/-- The severity sort preserves membership. -/
lemma mem_sortAlertsDesc (a : Alert) (l : List Alert) :
    a ∈ sortAlertsDesc l ↔ a ∈ l := by
  induction l with
  | nil => simp [sortAlertsDesc]
  | cons x xs ih =>
    unfold sortAlertsDesc
    rw [mem_insertAlertDesc]
    simp only [List.mem_cons, ih]

/-- **C10.**  In the team wellbeing summary, a member without a check-in
inside the analysis window is invisible except for the head count: the whole
summary core (members_analysis, alerts, averages, trend) computed over a
member list equals the one computed over only the members with a recent
check, while `team_size` counts the full active team; and an overloaded
member *with* a recent check does raise the overload alert. -/
theorem C10_unchecked_member_invisible (s : DBState) (since : ℤ) (members : List User) :
    summarize s since (members.filter (fun m => (lastCheckSince s m.id since).isSome))
        = summarize s since members
    ∧ (∀ teamId : Nat, (teamWellbeingSummary s teamId since).elim True
        (fun summary => summary.teamSize = (s.users.filter
          (fun u => decide (u.managerId = some teamId) && u.isActive)).length))
    ∧ ∀ m ∈ members, ∀ c, lastCheckSince s m.id since = some c →
        isOverloaded m = true →
        (⟨"medium", m.fullName, "overload"⟩ : Alert) ∈ (summarize s since members).alerts := by
  refine ⟨summarize_filter s since members, ?_, ?_⟩
  · intro teamId
    unfold teamWellbeingSummary
    dsimp only
    split
    · exact trivial
    · rfl
  · intro m hm c hc hover
    unfold summarize
    dsimp only
    rw [mem_sortAlertsDesc]
    apply List.mem_flatMap.mpr
    refine ⟨(m, c), ?_, ?_⟩
    · apply List.mem_filterMap.mpr
      exact ⟨m, hm, by rw [hc]; rfl⟩
    · unfold memberAlerts
      have hov : (⟨"medium", m.fullName, "overload"⟩ : Alert)
          ∈ (if isOverloaded m then [(⟨"medium", m.fullName, "overload"⟩ : Alert)] else []) := by
        rw [if_pos hover]
        exact List.mem_singleton.mpr rfl
      exact List.mem_append.mpr (Or.inl (List.mem_append.mpr (Or.inr hov)))

/-- **C10 witness.**  On the demo team, the summary over both members equals
the summary over Carla alone (Davi, overloaded at 97.5% but without a recent
check, is invisible and raises no alert), while overloaded Carla with her
recent check does raise the overload alert. -/
theorem C10_unchecked_member_invisible_witness :
    summarize wellbeingDemoState 50 (wellbeingDemoState.users.filter
        (fun m => (lastCheckSince wellbeingDemoState m.id 50).isSome))
      = summarize wellbeingDemoState 50 wellbeingDemoState.users
    ∧ (⟨"medium", "Carla", "overload"⟩ : Alert)
        ∈ (summarize wellbeingDemoState 50 wellbeingDemoState.users).alerts := by
  have hmain := C10_unchecked_member_invisible wellbeingDemoState 50 wellbeingDemoState.users
  refine ⟨hmain.1, ?_⟩
  have hcarla : (⟨1, "carla", "Carla", .colaborador, true, some 10, 40, 38⟩ : User)
      ∈ wellbeingDemoState.users := List.mem_cons_self _ _
  have hcheck : lastCheckSince wellbeingDemoState 1 50
      = some ⟨1, .neutral, .medium, none, 100⟩ := by decide
  have hover : isOverloaded (⟨1, "carla", "Carla", .colaborador, true, some 10, 40, 38⟩ : User)
      = true := by
    norm_num [isOverloaded, workloadPercentage]
  exact hmain.2.2 _ hcarla _ hcheck hover

end GSIOT
